import Mathlib

/-!
Verification of the `tokenipsum` mock LLM API server (Rust) against its
natural-language specification.

This file shallowly embeds the parts of the source relevant to the frozen
claims:

* `src/generator.rs` — the fake-content producer (`ContentGenerator`):
  vocabulary, `word`, `words`, `sentence`, `paragraph`, `stream_chunks`,
  identifier generators and `estimate_tokens`.
* `src/config.rs` — configuration, runtime state, `should_error`,
  `is_valid_key`, `increment_requests`.
* `src/lib.rs` — the axum router and middleware pipeline
  (`create_router`, `latency_middleware`, `error_middleware`,
  `provider_from_path`) together with `src/errors.rs` status codes.
* `src/cerebras.rs`, `src/claude.rs`, `src/gemini.rs`, `src/openai.rs` —
  the provider response builders (tool heuristic, non-streaming
  responses, streaming event sequences with token accounting).

Modelling conventions:

* Rust `String`/`&str` is modelled as `List Char` (`Str`); Rust byte
  length (`str::len`) is the sum of per-character UTF-8 widths.
* `fastrand::Rng` is modelled as an oracle: an infinite stream of raw
  draws (`Nat → Nat`) plus a cursor.  The stream stands for the
  deterministic sequence of raw outputs that the seeded wyrand state
  produces, so "constructed with the same seed" means "same stream".
  Every bounded draw consumes exactly one stream element and is reduced
  into the requested range with `%`, which is faithful to the ranges the
  code requests (the uniformity of the distribution is not modelled).
* Machine integers are `Nat`; `u32`/`u64` wrap-arounds never matter for
  the claims (token counts and request counters stay far below the
  bounds), except for the `as u32` saturating cast in `estimate_tokens`,
  which is modelled explicitly.
* The single `f32` computation of the program, `estimate_tokens`, is
  modelled bit-exactly on naturals: `len as f32` rounds to the nearest
  even 24-bit significand (`roundF32`), the division by `4.0` and `ceil`
  are exact on IEEE-754 binary32, and the `as u32` cast saturates.
* `uuid::Uuid::new_v4()` (external crate, used by `completion_id`) draws
  from the operating system's entropy source, not from the producer's
  seeded generator; it is modelled as an explicit entropy input.
* Async `sleep` calls only pace the output; they are modelled by the
  latency trace entry (middleware) or ignored (inter-fragment pacing),
  neither of which affects any value the claims mention.
-/

/-! ### Strings as lists of characters -/

/-- Rust strings are modelled as lists of Unicode scalar values. -/
abbrev Str := List Char

/-- Convert a Lean string literal into the model representation. -/
def str (s : String) : Str := s.toList

/-- UTF-8 width in bytes of one character (what Rust `str::len` sums). -/
def charBytes (c : Char) : Nat :=
  if c.toNat < 0x80 then 1
  else if c.toNat < 0x800 then 2
  else if c.toNat < 0x10000 then 3
  else 4

/-- Rust `str::len`: the UTF-8 byte length of a string. -/
def byteLen (s : Str) : Nat := (s.map charBytes).sum

/-- Rust `str::to_lowercase`, restricted to the one-to-one character
mapping (all strings compared against the trigger vocabulary are ASCII,
where Rust's Unicode lowercasing agrees with per-character lowering). -/
def lowerStr (s : Str) : Str := s.map Char.toLower

/-- Rust `str::contains(pat)`: substring containment. -/
def strContains : Str → Str → Bool
  | [], pat => pat.isEmpty
  | c :: t, pat => pat.isPrefixOf (c :: t) || strContains t pat

/-- Split a string at every character satisfying `p` (keeping empty
pieces), the skeleton under `split_whitespace` and word counting. -/
def splitBy (p : Char → Bool) : Str → List Str
  | [] => [[]]
  | c :: t =>
    let r := splitBy p t
    if p c then [] :: r
    else
      match r with
      | [] => [[c]]
      | w :: ws => (c :: w) :: ws

/-- Rust `str::split_whitespace`: maximal runs of non-whitespace. -/
def splitWs (s : Str) : List Str :=
  (splitBy (fun c => c.isWhitespace) s).filter (fun w => ¬ w.isEmpty)

/-- Number of space-separated fields of a string (used to state the
"words per chunk" part of the streaming claim). -/
def wordCount (s : Str) : Nat := (splitBy (fun c => c = ' ') s).length

/-- Rust `slice::join(" ")` on strings. -/
def joinSpace : List Str → Str
  | [] => []
  | [w] => w
  | w :: w' :: ws => w ++ ' ' :: joinSpace (w' :: ws)

/-- Rust `str::trim`: drop whitespace from both ends. -/
def trimStr (s : Str) : Str :=
  ((s.dropWhile Char.isWhitespace).reverse.dropWhile Char.isWhitespace).reverse

/-- Rust `str::trim_matches(p)`: drop characters satisfying `p` from both
ends. -/
def trimMatches (p : Char → Bool) (s : Str) : Str :=
  ((s.dropWhile p).reverse.dropWhile p).reverse

/-! ### The pseudo-random generator oracle -/

/-- Oracle model of `fastrand::Rng`: `stream` is the seed-determined
sequence of raw draws, `idx` the number of draws consumed so far. -/
structure Rng where
  stream : Nat → Nat
  idx : Nat

/-- Consume one raw draw. -/
def Rng.next (r : Rng) : Nat × Rng :=
  (r.stream r.idx, { r with idx := r.idx + 1 })

/-- `rng.usize(..n)` / `rng.u8(..n)`: one draw reduced below `n`. -/
def Rng.below (r : Rng) (n : Nat) : Nat × Rng :=
  let (v, r') := r.next
  (v % n, r')

/-- `rng.usize(lo..hi)` (exclusive upper bound). -/
def Rng.rangeEx (r : Rng) (lo hi : Nat) : Nat × Rng :=
  let (v, r') := r.next
  (lo + v % (hi - lo), r')

/-- `rng.usize(lo..=hi)` (inclusive upper bound). -/
def Rng.rangeIncl (r : Rng) (lo hi : Nat) : Nat × Rng :=
  let (v, r') := r.next
  (lo + v % (hi + 1 - lo), r')

/-- `rng.u64(..)`: one full-width draw. -/
def Rng.u64 (r : Rng) : Nat × Rng :=
  let (v, r') := r.next
  (v % 2 ^ 64, r')

/-- `rng.f32()`: a draw in `[0,1)` with 24 bits of precision, as an exact
rational (every `f32` value is rational, so the comparison against the
configured error rate is exact). -/
def Rng.f32unit (r : Rng) : ℚ × Rng :=
  let (v, r') := r.next
  (mkRat (v % 2 ^ 24) (2 ^ 24), r')

/-! ### The vocabulary (`WORDS` in `src/generator.rs`) -/

/-- The fixed 102-entry vocabulary of `src/generator.rs`. -/
def WORDS : List Str :=
  [str "the", str "be", str "to", str "of", str "and", str "a", str "in",
   str "that", str "have", str "I", str "it", str "for", str "not",
   str "on", str "with", str "he", str "as", str "you", str "do",
   str "at", str "this", str "but", str "his", str "by", str "from",
   str "they", str "we", str "say", str "her", str "she", str "or",
   str "an", str "will", str "my", str "one", str "all", str "would",
   str "there", str "their", str "what", str "so", str "up", str "out",
   str "if", str "about", str "who", str "get", str "which", str "go",
   str "me", str "when", str "make", str "can", str "like", str "time",
   str "no", str "just", str "him", str "know", str "take",
   str "people", str "into", str "year", str "your", str "good",
   str "some", str "could", str "them", str "see", str "other",
   str "than", str "then", str "now", str "look", str "only",
   str "come", str "its", str "over", str "think", str "also",
   str "AI", str "model", str "neural", str "network", str "learning",
   str "data", str "training", str "inference", str "token",
   str "embedding", str "transformer", str "attention", str "layer",
   str "output", str "input", str "parameter", str "weight",
   str "gradient", str "optimization", str "loss", str "accuracy",
   str "batch"]

/-! ### The content generator (`src/generator.rs`) -/

/-- `ContentGenerator`: the fake-content producer. -/
structure ContentGenerator where
  rng : Rng
  tokens_per_chunk : Nat
  chunk_delay_ms : Nat

namespace ContentGenerator

/-- `ContentGenerator::new` / `with_seed`: the stream argument is the raw
draw sequence the (seeded or entropy-seeded) wyrand state produces. -/
def mk' (stream : Nat → Nat) : ContentGenerator :=
  { rng := { stream := stream, idx := 0 }, tokens_per_chunk := 3, chunk_delay_ms := 20 }

/-- `word`: one vocabulary entry drawn by index. -/
def word (g : ContentGenerator) : Str × ContentGenerator :=
  let (i, r) := g.rng.below WORDS.length
  (WORDS.getD i [], { g with rng := r })

/-- The words collected by `words` before joining. -/
def wordList (g : ContentGenerator) : Nat → List Str × ContentGenerator
  | 0 => ([], g)
  | n + 1 =>
    let (w, g1) := g.word
    let (ws, g2) := g1.wordList n
    (w :: ws, g2)

/-- `words(count)`: `count` draws joined by single spaces. -/
def words (g : ContentGenerator) (count : Nat) : Str × ContentGenerator :=
  let (ws, g') := g.wordList count
  (joinSpace ws, g')

/-- `sentence`: 5–14 words, first character upper-cased, period appended. -/
def sentence (g : ContentGenerator) : Str × ContentGenerator :=
  let (count, r) := g.rng.rangeEx 5 15
  let (s, g1) := { g with rng := r }.words count
  let s2 := match s with
    | [] => []
    | c :: t => c.toUpper :: t
  (s2 ++ ['.'], g1)

/-- The sentences collected by `paragraph` before joining. -/
def sentenceList (g : ContentGenerator) : Nat → List Str × ContentGenerator
  | 0 => ([], g)
  | n + 1 =>
    let (s, g1) := g.sentence
    let (ss, g2) := g1.sentenceList n
    (s :: ss, g2)

/-- `paragraph`: 2–4 sentences joined by single spaces. -/
def paragraph (g : ContentGenerator) : Str × ContentGenerator :=
  let (count, r) := g.rng.rangeEx 2 5
  let (ss, g1) := { g with rng := r }.sentenceList count
  (joinSpace ss, g1)

/-- The `while remaining > 0` loop of `stream_chunks`.  The loop consumes
at least one token per iteration, so `remaining` itself is enough fuel;
the fuel argument only makes the recursion structural (kernel-reducible),
it never cuts the loop short (`streamChunksAux_fuel`). -/
def streamChunksAux : Nat → ContentGenerator → Nat → List Str × ContentGenerator
  | 0, g, _ => ([], g)
  | fuel + 1, g, remaining =>
    if remaining = 0 then ([], g)
    else
      let (d, r1) := g.rng.rangeIncl 1 (max g.tokens_per_chunk 1)
      let chunk_size := min remaining d
      let (c, g2) := { g with rng := r1 }.words chunk_size
      let (rest, g3) := streamChunksAux fuel g2 (remaining - chunk_size)
      (c :: rest, g3)

/-- Append the period to the last chunk (`chunks.last_mut`). -/
def pushDotLast : List Str → List Str
  | [] => []
  | [c] => [c ++ ['.']]
  | c :: c' :: rest => c :: pushDotLast (c' :: rest)

/-- `stream_chunks(total_tokens)`: partition the budget into randomly
sized chunks of words and add a period to the last chunk. -/
def stream_chunks (g : ContentGenerator) (total_tokens : Nat) :
    List Str × ContentGenerator :=
  let (cs, g') := streamChunksAux total_tokens g total_tokens
  (pushDotLast cs, g')

/-- Hexadecimal digits of `n`, zero-padded on the left to width `w`
(Rust `format!("{:0w$x}", n)`). -/
def hexPad (w n : Nat) : Str :=
  let h := Nat.toDigits 16 n
  List.replicate (w - h.length) '0' ++ h

/-- `tool_call_id`: `format!("{:011x}", rng.u64(..))`. -/
def tool_call_id (g : ContentGenerator) : Str × ContentGenerator :=
  let (v, r) := g.rng.u64
  (hexPad 11 v, { g with rng := r })

/-- Modelled from the spec: `uuid::Uuid::new_v4()` is an external crate
call that draws from the operating system's entropy source (the spec's
"system entropy"), independent of the producer's seeded generator.  It is
modelled as a function of an explicit entropy input; the exact textual
format of the UUID is irrelevant to every claim, only its dependence on
the entropy matters. -/
def uuidV4 (entropy : Nat) : Str := hexPad 32 entropy

/-- `completion_id`: `format!("chatcmpl-{}", Uuid::new_v4())`.  Note the
UUID comes from system entropy, not from `self.rng`. -/
def completion_id (g : ContentGenerator) (entropy : Nat) :
    Str × ContentGenerator :=
  (str "chatcmpl-" ++ uuidV4 entropy, g)

/-- `fingerprint`: `format!("fp_{:016x}", rng.u64(..))`. -/
def fingerprint (g : ContentGenerator) : Str × ContentGenerator :=
  let (v, r) := g.rng.u64
  (str "fp_" ++ hexPad 16 v, { g with rng := r })

end ContentGenerator

/-! ### Bit-exact model of `estimate_tokens`

`estimate_tokens` is `((text.len() as f32) / 4.0).ceil() as u32`.
`len as f32` rounds the integer to the nearest `f32` (24-bit significand,
ties to even); dividing a (normal, non-huge) `f32` by `4.0` only shifts
the exponent and is exact; `ceil` of an `f32` is exact and its result is
representable; `as u32` saturates at `u32::MAX`.  So on naturals the
function is `min (2^32 - 1) ((roundF32 len + 3) / 4)`. -/

/-- Fuel-driven bit length (the fuel only makes the recursion
kernel-reducible; `bits_rec` recovers the natural recurrence). -/
def bitsAux : Nat → Nat → Nat
  | 0, _ => 0
  | fuel + 1, n => if n = 0 then 0 else bitsAux fuel (n / 2) + 1

/-- Number of binary digits of `n` (0 for 0). -/
def bits (n : Nat) : Nat := bitsAux n n

/-- Round `n` to the nearest multiple of the `f32` unit in the last place
of its binade (ties to even), i.e. the exact value of `n as f32`. -/
def roundF32 (n : Nat) : Nat :=
  let u := 2 ^ (bits n - 24)
  let q := n / u
  let r := n % u
  if 2 * r < u then q * u
  else if u < 2 * r then (q + 1) * u
  else if q % 2 = 0 then q * u else (q + 1) * u

/-- `estimate_tokens` as a function of the byte length. -/
def estimateTokensLen (n : Nat) : Nat :=
  min (2 ^ 32 - 1) ((roundF32 n + 3) / 4)

/-- `ContentGenerator::estimate_tokens` (an associated function): token
estimate of a string from its UTF-8 byte length. -/
def ContentGenerator.estimate_tokens (s : Str) : Nat :=
  estimateTokensLen (byteLen s)

/-! ### Configuration and runtime state (`src/config.rs`) -/

/-- `ErrorType` in `src/config.rs`. -/
inductive ErrorType
  | Unauthorized
  | RateLimit
  | ServerError
  | Timeout
deriving DecidableEq, Repr

/-- `ForceError` in `src/config.rs`. -/
inductive ForceError
  | None
  | Unauthorized
  | RateLimit
  | ServerError
  | Timeout
deriving DecidableEq, Repr

/-- `ServerConfig`. -/
structure ServerConfig where
  port : Nat
  latency_ms : Nat
deriving DecidableEq, Repr

/-- `RateLimitConfig`. -/
structure RateLimitConfig where
  enabled : Bool
  requests_per_minute : Nat
  fail_after_requests : Nat
deriving DecidableEq, Repr

/-- `ErrorConfig` (the `f32` error rate is an exact rational; every `f32`
value is a rational so the `<` comparison in `should_error` is exact). -/
structure ErrorConfig where
  error_rate : ℚ
  force_error : ForceError
deriving DecidableEq, Repr

/-- `AuthConfig`. -/
structure AuthConfig where
  require_auth : Bool
  valid_keys : List Str
deriving DecidableEq, Repr

/-- `ProviderConfig`. -/
structure ProviderConfig where
  cerebras : Bool
  gemini : Bool
  claude : Bool
  openai : Bool
deriving DecidableEq, Repr

/-- `ContentConfig`. -/
structure ContentConfig where
  deterministic : Bool
  seed : Nat
deriving DecidableEq, Repr

/-- `Config`. -/
structure Config where
  server : ServerConfig
  rate_limit : RateLimitConfig
  errors : ErrorConfig
  auth : AuthConfig
  providers : ProviderConfig
  content : ContentConfig
deriving DecidableEq, Repr

/-- The defaults of `src/config.rs`. -/
def Config.default : Config :=
  { server := { port := 8787, latency_ms := 0 }
    rate_limit := { enabled := false, requests_per_minute := 60, fail_after_requests := 0 }
    errors := { error_rate := 0, force_error := .None }
    auth := { require_auth := false, valid_keys := [] }
    providers := { cerebras := true, gemini := true, claude := true, openai := true }
    content := { deterministic := false, seed := 42 } }

/-- `RuntimeState`: configuration, the shared request counter and the
shared generator.  The atomic counter and the mutex around the generator
serialise access; a single request's pipeline is therefore a sequential
function of the state it observes, which is what is modelled here. -/
structure RuntimeState where
  config : Config
  request_count : Nat
  rng : Rng

/-- `RuntimeState::increment_requests`: `fetch_add(1) + 1`. -/
def RuntimeState.increment_requests (st : RuntimeState) : Nat × RuntimeState :=
  (st.request_count + 1, { st with request_count := st.request_count + 1 })

/-- `RuntimeState::should_error`: forced error, then hard threshold
against the current counter value, then the probabilistic draw. -/
def RuntimeState.should_error (st : RuntimeState) :
    Option ErrorType × RuntimeState :=
  match st.config.errors.force_error with
  | .Unauthorized => (some .Unauthorized, st)
  | .RateLimit => (some .RateLimit, st)
  | .ServerError => (some .ServerError, st)
  | .Timeout => (some .Timeout, st)
  | .None =>
    if 0 < st.config.rate_limit.fail_after_requests ∧
        st.config.rate_limit.fail_after_requests ≤ st.request_count then
      (some .RateLimit, st)
    else if 0 < st.config.errors.error_rate then
      let (f, r1) := st.rng.f32unit
      if f < st.config.errors.error_rate then
        let (k, r2) := r1.below 3
        (some (match k with
               | 0 => ErrorType.Unauthorized
               | 1 => ErrorType.RateLimit
               | _ => ErrorType.ServerError), { st with rng := r2 })
      else (none, { st with rng := r1 })
    else (none, st)

/-- `RuntimeState::is_valid_key`. -/
def RuntimeState.is_valid_key (st : RuntimeState) (key : Option Str) : Bool :=
  if ¬ st.config.auth.require_auth then true
  else
    match key with
    | some k => st.config.auth.valid_keys.any (fun valid => valid = k)
    | none => false

/-- `RuntimeState::latency_ms`. -/
def RuntimeState.latency_ms (st : RuntimeState) : Nat :=
  st.config.server.latency_ms

/-! ### Error responses (`src/errors.rs`) -/

/-- `Provider` in `src/errors.rs`. -/
inductive Provider
  | Cerebras
  | Gemini
  | Claude
  | OpenAI
deriving DecidableEq, Repr

/-- HTTP status of each injected error (`src/errors.rs`): 401, 429 (with
rate-limit headers), 500, 504 respectively, each with the provider's
documented error envelope as body. -/
def errorStatus : ErrorType → Nat
  | .Unauthorized => 401
  | .RateLimit => 429
  | .ServerError => 500
  | .Timeout => 504

/-! ### The middleware pipeline (`src/lib.rs`)

`create_router` mounts `/health` and the enabled provider routes, then
layers `error_middleware`, then `latency_middleware`, then CORS.  In
axum, each `Router::layer` call wraps everything added before it, so the
layer added last is the outermost one and sees the request first: an
inbound request passes CORS (inert), then `latency_middleware`, then
`error_middleware`, and only then reaches a route handler.  The model
composes the middleware functions in exactly that nesting and records a
trace entry whenever a pipeline stage acts on the request. -/

/-- One executed pipeline stage.  `latency d` is recorded when the
latency middleware actually suspends the request for `d` ms; `count`,
`auth` and `fault` are the three actions of `error_middleware` in source
order; `dispatch` is recorded when a route handler is reached. -/
inductive Stage
  | latency (ms : Nat)
  | count
  | auth
  | fault
  | dispatch
deriving DecidableEq, Repr

/-- HTTP method of a request (only the two the router uses). -/
inductive Method
  | GET
  | POST
deriving DecidableEq, Repr

/-- An inbound request as the middleware sees it: method, path and the
raw `Authorization` header if present. -/
structure MwRequest where
  method : Method
  path : Str
  authorization : Option Str
deriving DecidableEq

/-- What the pipeline produces for a request.  `ok` is the `/health`
body; `routed p` marks that the request reached provider `p`'s builder
(the builders themselves are modelled separately); `fault` is a complete
provider-shaped error response from `src/errors.rs`; `notFound` is the
router fallback. -/
inductive MwResponse
  | ok (body : Str)
  | routed (p : Provider)
  | fault (status : Nat) (p : Provider) (e : ErrorType)
  | notFound
deriving DecidableEq, Repr

/-- Mutable per-request system view: trace of executed stages plus the
shared runtime state. -/
structure Sys where
  trace : List Stage
  st : RuntimeState

/-- `provider_from_path`. -/
def provider_from_path (path : Str) : Provider :=
  if strContains path (str "/v1beta/models") then .Gemini
  else if strContains path (str "/v1/messages") then .Claude
  else if strContains path (str "/v1/responses") then .OpenAI
  else .Cerebras

/-- Repeatedly strip a leading `"Bearer "` (Rust `trim_start_matches`
removes every successive occurrence of the pattern); fuel-driven to stay
structural, with the string length as always-sufficient fuel. -/
def stripBearerAux : Nat → Str → Str
  | 0, s => s
  | fuel + 1, s =>
    if (str "Bearer ").isPrefixOf s then stripBearerAux fuel (s.drop 7) else s

/-- The credential extraction of `error_middleware`:
`trim_start_matches("Bearer ").trim()` applied to the header value. -/
def extractBearer (h : Option Str) : Option Str :=
  h.map (fun s => trimStr (stripBearerAux s.length s))

/-- `latency_middleware`: suspend for the configured latency (recorded in
the trace) and hand over to the inner service. -/
def latency_middleware (next : MwRequest → Sys → MwResponse × Sys)
    (req : MwRequest) (sys : Sys) : MwResponse × Sys :=
  let lat := sys.st.latency_ms
  let sys := if 0 < lat then { sys with trace := sys.trace ++ [.latency lat] } else sys
  next req sys

/-- `error_middleware`: count, auth check, fault-injection check, each
with its trace entry; a failing check returns the provider-shaped error
response immediately and the inner service is never called. -/
def error_middleware (next : MwRequest → Sys → MwResponse × Sys)
    (req : MwRequest) (sys : Sys) : MwResponse × Sys :=
  let st1 := (sys.st.increment_requests).2
  let sys1 : Sys := { trace := sys.trace ++ [.count, .auth], st := st1 }
  if sys1.st.config.auth.require_auth ∧
      ¬ sys1.st.is_valid_key (extractBearer req.authorization) then
    (.fault (errorStatus .Unauthorized) (provider_from_path req.path) .Unauthorized, sys1)
  else
    let sys2 : Sys := { sys1 with trace := sys1.trace ++ [.fault] }
    let sys3 : Sys := { sys2 with st := (sys2.st.should_error).2 }
    match (sys2.st.should_error).1 with
    | some e => (.fault (errorStatus e) (provider_from_path req.path) e, sys3)
    | none => next req sys3

/-- The route table of `create_router`: `/health` plus the enabled
provider endpoints; reaching a handler is recorded as `dispatch`. -/
def route_handlers (req : MwRequest) (sys : Sys) : MwResponse × Sys :=
  let cfg := sys.st.config
  if req.method = .GET ∧ req.path = str "/health" then
    (.ok (str "ok"), { sys with trace := sys.trace ++ [.dispatch] })
  else if req.method = .POST ∧ req.path = str "/v1/chat/completions" ∧ cfg.providers.cerebras then
    (.routed .Cerebras, { sys with trace := sys.trace ++ [.dispatch] })
  else if req.method = .POST ∧ (str "/v1beta/models/").isPrefixOf req.path ∧ cfg.providers.gemini then
    (.routed .Gemini, { sys with trace := sys.trace ++ [.dispatch] })
  else if req.method = .POST ∧ req.path = str "/v1/messages" ∧ cfg.providers.claude then
    (.routed .Claude, { sys with trace := sys.trace ++ [.dispatch] })
  else if req.method = .POST ∧ req.path = str "/v1/responses" ∧ cfg.providers.openai then
    (.routed .OpenAI, { sys with trace := sys.trace ++ [.dispatch] })
  else
    (.notFound, sys)

/-- The whole pipeline of `create_router`, in axum's nesting order: the
last-added layer (CORS, inert) is outermost, then the latency layer, then
the error layer, then the routes. -/
def handle_request (req : MwRequest) (sys : Sys) : MwResponse × Sys :=
  latency_middleware (error_middleware route_handlers) req sys

/-! ### Shared builder helpers -/

/-- `serde_json::json!({"location": v}).to_string()` (escaping of special
characters inside `v` is not modelled; no claim feeds such a value). -/
def jsonLoc (v : Str) : Str :=
  str "\x7b\"location\":\"" ++ v ++ str "\"\x7d"

/-- The five trigger words of the tool heuristic. -/
def TRIGGERS : List Str :=
  [str "weather", str "search", str "calculate", str "what is", str "find"]

/-- The trigger test every provider applies to the extracted text:
lowercase it and look for any trigger word as a substring. -/
def containsTrigger (t : Str) : Bool :=
  TRIGGERS.any (fun w => strContains (lowerStr t) w)

/-! ### Cerebras builder (`src/cerebras.rs`) -/

/-- `Message` (cerebras). -/
structure CerMessage where
  role : Str
  content : Option Str
deriving DecidableEq

/-- `StreamOptions`. -/
structure CerStreamOptions where
  include_usage : Bool
deriving DecidableEq

/-- `ToolFunction` (description and parameters are never read). -/
structure CerToolFunction where
  name : Str
deriving DecidableEq

/-- `Tool` (cerebras). -/
structure CerTool where
  tool_type : Str
  function : CerToolFunction
deriving DecidableEq

/-- `ChatCompletionRequest` (temperature, top_p and tool_choice are never
read by the builder and are omitted). -/
structure ChatCompletionRequest where
  model : Str
  messages : List CerMessage
  stream : Bool
  stream_options : Option CerStreamOptions
  max_tokens : Option Nat
  tools : Option (List CerTool)
deriving DecidableEq

/-- `should_call_tool` (cerebras): trigger words in the last message's
text. -/
def cerebras_should_call_tool (req : ChatCompletionRequest) : Bool :=
  match req.messages.getLast? with
  | some last =>
    match last.content with
    | some content =>
      let lower := lowerStr content
      strContains lower (str "weather") || strContains lower (str "search") ||
        strContains lower (str "calculate") || strContains lower (str "what is") ||
        strContains lower (str "find")
    | none => false
  | none => false

/-- `wants_tools` as computed in `chat_completions`:
`req.tools.is_some() && should_call_tool(&req)`. -/
def cerebras_wants_tools (req : ChatCompletionRequest) : Bool :=
  req.tools.isSome && cerebras_should_call_tool req

/-- `extract_argument` (cerebras): last whitespace-separated word of byte
length `> 2` of the last message, trimmed of non-alphanumeric edges,
falling back to `"unknown"`. -/
def cerebras_extract_argument (req : ChatCompletionRequest) : Str :=
  match req.messages.getLast?.bind (fun m => m.content) with
  | none => str "unknown"
  | some c =>
    trimMatches (fun ch => ¬ ch.isAlphanum)
      ((((splitWs c).filter (fun w => 2 < byteLen w)).getLast?).getD (str "unknown"))

/-- `FunctionCall` (response side). -/
structure CerFunctionCall where
  name : Str
  arguments : Str
deriving DecidableEq

/-- `ToolCall` (response side). -/
structure CerToolCall where
  id : Str
  call_type : Str
  function : CerFunctionCall
deriving DecidableEq

/-- `ResponseMessage`. -/
structure CerResponseMessage where
  role : Str
  content : Option Str
  tool_calls : Option (List CerToolCall)
deriving DecidableEq

/-- `Choice`. -/
structure CerChoice where
  index : Nat
  message : CerResponseMessage
  finish_reason : Str
deriving DecidableEq

/-- `Usage` (cerebras; the always-zero `cached_tokens` detail field is
omitted). -/
structure CerUsage where
  prompt_tokens : Nat
  completion_tokens : Nat
  total_tokens : Nat
deriving DecidableEq, Repr

/-- `ChatCompletionResponse` (the constant `object` tag and the wall-clock
`created`/`time_info` fields are omitted). -/
structure ChatCompletionResponse where
  id : Str
  model : Str
  system_fingerprint : Str
  choices : List CerChoice
  usage : CerUsage
deriving DecidableEq

/-- `non_stream_response` (cerebras).  `entropy` feeds the v4 UUID inside
`completion_id`. -/
def cerebras_non_stream_response (req : ChatCompletionRequest)
    (g : ContentGenerator) (entropy : Nat) : ChatCompletionResponse :=
  let wants_tools := cerebras_wants_tools req
  let id := (g.completion_id entropy).1
  let g0 := (g.completion_id entropy).2
  let fingerprint := (g0.fingerprint).1
  let g1 := (g0.fingerprint).2
  let max_tokens := req.max_tokens.getD 100
  let content := (g1.paragraph).1
  let g2 := (g1.paragraph).2
  let completion_tokens := min (ContentGenerator.estimate_tokens content) max_tokens
  let prompt_tokens :=
    ((req.messages.filterMap (fun m => m.content)).map
      ContentGenerator.estimate_tokens).sum
  let message :=
    if wants_tools then
      ({ role := str "assistant", content := none,
         tool_calls := some [{ id := (g2.tool_call_id).1, call_type := str "function",
                               function := { name := ((req.tools.bind List.head?).map
                                               (fun t => t.function.name)).getD [],
                                             arguments :=
                                               jsonLoc (cerebras_extract_argument req) } }] } :
        CerResponseMessage)
    else
      { role := str "assistant", content := some content, tool_calls := none }
  let finish_reason := if wants_tools then str "tool_calls" else str "stop"
  { id := id, model := req.model, system_fingerprint := fingerprint,
    choices := [{ index := 0, message := message, finish_reason := finish_reason }],
    usage := { prompt_tokens := prompt_tokens, completion_tokens := completion_tokens,
               total_tokens := prompt_tokens + completion_tokens } }

/-- Delta payload of one cerebras streaming chunk. -/
inductive CerDelta
  | role
  | content (text : Str)
  | toolCalls (id name arguments : Str)
deriving DecidableEq

/-- One frame of the cerebras SSE stream: a data chunk, the final chunk
carrying the finish reason (and usage when opted in), or the literal
`data: [DONE]` sentinel. -/
inductive CerEvent
  | chunk (delta : CerDelta)
  | finalChunk (finish_reason : Str) (usage : Option CerUsage)
  | done
deriving DecidableEq

/-- The `delta.content` extraction the source applies to each built chunk
when tallying `completion_tokens`. -/
def cerContentOf : CerEvent → Option Str
  | .chunk (.content s) => some s
  | _ => none

/-- Insert the single leading space before every chunk after the first
(`if i > 0 { " " } else { "" }`). -/
def spaceAfterFirst : List Str → List Str
  | [] => []
  | c :: rest => c :: rest.map (fun s => ' ' :: s)

/-- `generate_content_chunks`: role announcement then one content delta
per `stream_chunks` chunk. -/
def cerebras_generate_content_chunks (g : ContentGenerator) (max_tokens : Nat) :
    List CerEvent × ContentGenerator :=
  let parts := (g.stream_chunks max_tokens).1
  (CerEvent.chunk .role :: (spaceAfterFirst parts).map (fun s => CerEvent.chunk (.content s)),
   (g.stream_chunks max_tokens).2)

/-- `generate_tool_chunks`: role announcement then one tool-call delta. -/
def cerebras_generate_tool_chunks (req : ChatCompletionRequest)
    (g : ContentGenerator) : List CerEvent × ContentGenerator :=
  let tool_name := ((req.tools.bind List.head?).map (fun t => t.function.name)).getD []
  let arg_value := cerebras_extract_argument req
  ([CerEvent.chunk .role,
    CerEvent.chunk (.toolCalls (g.tool_call_id).1 tool_name (jsonLoc arg_value))],
   (g.tool_call_id).2)

/-- `stream_response` (cerebras): the ordered frame sequence of the SSE
body.  `completion_tokens` is tallied from the built chunks by extracting
`delta.content`, then clamped with `.max(1)`. -/
def cerebras_stream_events (req : ChatCompletionRequest)
    (g : ContentGenerator) (entropy : Nat) : List CerEvent :=
  let wants_tools := cerebras_wants_tools req
  let g0 := (g.completion_id entropy).2
  let g1 := (g0.fingerprint).2
  let include_usage := (req.stream_options.map (fun o => o.include_usage)).getD false
  let max_tokens := req.max_tokens.getD 50
  let prompt_tokens :=
    ((req.messages.filterMap (fun m => m.content)).map
      ContentGenerator.estimate_tokens).sum
  let chunks :=
    if wants_tools then (cerebras_generate_tool_chunks req g1).1
    else (cerebras_generate_content_chunks g1 max_tokens).1
  let finish_reason := if wants_tools then str "tool_calls" else str "stop"
  let completion_tokens :=
    max (((chunks.filterMap cerContentOf).map ContentGenerator.estimate_tokens).sum) 1
  let usage : Option CerUsage :=
    if include_usage then
      some { prompt_tokens := prompt_tokens, completion_tokens := completion_tokens,
             total_tokens := prompt_tokens + completion_tokens }
    else none
  chunks ++ [CerEvent.finalChunk finish_reason usage, CerEvent.done]

/-! ### Claude builder (`src/claude.rs`) -/

/-- `ContentBlock` (claude): the typed request content blocks. -/
inductive ClContentBlock
  | Text (text : Str)
  | ToolUse (id : Str) (name : Str) (input : Str)
  | ToolResult (tool_use_id : Str) (content : Str)
  | Thinking (thinking : Str) (signature : Str)
deriving DecidableEq

/-- `MessageContent` (claude): plain text or a block list. -/
inductive ClMessageContent
  | Text (t : Str)
  | Blocks (bs : List ClContentBlock)
deriving DecidableEq

/-- `Message` (claude). -/
structure ClMessage where
  role : Str
  content : ClMessageContent
deriving DecidableEq

/-- `Tool` (claude; description and input_schema are never read). -/
structure ClTool where
  name : Str
deriving DecidableEq

/-- `ThinkingConfig`. -/
structure ClThinkingConfig where
  thinking_type : Str
  budget_tokens : Nat
deriving DecidableEq

/-- `MessagesRequest` (temperature is never read and omitted). -/
structure MessagesRequest where
  model : Str
  messages : List ClMessage
  max_tokens : Nat
  stream : Bool
  system : Option Str
  tools : Option (List ClTool)
  thinking : Option ClThinkingConfig
deriving DecidableEq

/-- The text extraction `should_call_tool` and `extract_argument` share:
plain text as is, otherwise the first `Text` block. -/
def clMessageText (c : ClMessageContent) : Option Str :=
  match c with
  | .Text t => some t
  | .Blocks bs =>
    bs.findSome? (fun b =>
      match b with
      | .Text text => some text
      | _ => none)

/-- `should_call_tool` (claude). -/
def claude_should_call_tool (req : MessagesRequest) : Bool :=
  match req.messages.getLast? with
  | some last =>
    match clMessageText last.content with
    | some text =>
      let lower := lowerStr text
      strContains lower (str "weather") || strContains lower (str "search") ||
        strContains lower (str "calculate") || strContains lower (str "what is") ||
        strContains lower (str "find")
    | none => false
  | none => false

/-- `wants_tools` as computed in `messages`. -/
def claude_wants_tools (req : MessagesRequest) : Bool :=
  req.tools.isSome && claude_should_call_tool req

/-- `extract_argument` (claude): `rfind` of the last whitespace-separated
word of byte length `> 2`, trimmed of non-alphanumeric edges. -/
def claude_extract_argument (req : MessagesRequest) : Str :=
  match req.messages.getLast?.bind (fun m => clMessageText m.content) with
  | none => str "unknown"
  | some text =>
    trimMatches (fun ch => ¬ ch.isAlphanum)
      ((((splitWs text).filter (fun w => 2 < byteLen w)).getLast?).getD (str "unknown"))

/-- `generate_message_id`. -/
def claude_generate_message_id (g : ContentGenerator) : Str × ContentGenerator :=
  (str "msg_" ++ (g.tool_call_id).1, (g.tool_call_id).2)

/-- `generate_tool_use_id`. -/
def claude_generate_tool_use_id (g : ContentGenerator) : Str × ContentGenerator :=
  (str "toolu_" ++ (g.tool_call_id).1, (g.tool_call_id).2)

/-- The 40-iteration loop of `generate_signature`; each iteration draws a
fresh `tool_call_id` and hex-formats the byte value of its first
character. -/
def claude_signatureAux : Nat → ContentGenerator → Str × ContentGenerator
  | 0, g => ([], g)
  | n + 1, g =>
    let c := ((g.tool_call_id).1).headD '0'
    (ContentGenerator.hexPad 2 c.toNat ++ (claude_signatureAux n (g.tool_call_id).2).1,
     (claude_signatureAux n (g.tool_call_id).2).2)

/-- `generate_signature`. -/
def claude_generate_signature (g : ContentGenerator) : Str × ContentGenerator :=
  (str "EtUB" ++ (claude_signatureAux 40 g).1 ++ str "==", (claude_signatureAux 40 g).2)

/-- `count_input_tokens` (claude): system text plus, per message, the
text estimate (plain), or the per-block estimates with the fixed 10 for
tool blocks. -/
def claude_count_input_tokens (req : MessagesRequest) : Nat :=
  let system_tokens := (req.system.map ContentGenerator.estimate_tokens).getD 0
  let message_tokens :=
    (req.messages.map (fun m =>
      match m.content with
      | .Text t => ContentGenerator.estimate_tokens t
      | .Blocks bs =>
        (bs.map (fun b =>
          match b with
          | .Text text => ContentGenerator.estimate_tokens text
          | .Thinking thinking _ => ContentGenerator.estimate_tokens thinking
          | _ => 10)).sum)).sum
  system_tokens + message_tokens

/-- `ResponseContent` (claude). -/
inductive ClResponseContent
  | Text (text : Str)
  | ToolUse (id : Str) (name : Str) (input : Str)
  | Thinking (thinking : Str) (signature : Str)
deriving DecidableEq

/-- `Usage` (claude; the always-`Some 0` cache fields are omitted). -/
structure ClUsage where
  input_tokens : Nat
  output_tokens : Nat
deriving DecidableEq, Repr

/-- `MessagesResponse` (the constant `type`/`role`/`stop_sequence` fields
are omitted). -/
structure MessagesResponse where
  id : Str
  model : Str
  content : List ClResponseContent
  stop_reason : Str
  usage : ClUsage
deriving DecidableEq

/-- `non_stream_response` (claude). -/
def claude_non_stream_response (req : MessagesRequest) (g : ContentGenerator) :
    MessagesResponse :=
  let wants_tools := claude_wants_tools req
  let wants_thinking := req.thinking.isSome
  let id := (claude_generate_message_id g).1
  let g0 := (claude_generate_message_id g).2
  let input_tokens := claude_count_input_tokens req
  let thinkContent :=
    if wants_thinking then
      [ClResponseContent.Thinking (g0.paragraph).1
        (claude_generate_signature (g0.paragraph).2).1]
    else []
  let thinkTokens :=
    if wants_thinking then ContentGenerator.estimate_tokens (g0.paragraph).1 else 0
  let g1 :=
    if wants_thinking then (claude_generate_signature (g0.paragraph).2).2 else g0
  let mainContent :=
    if wants_tools then
      [ClResponseContent.ToolUse (claude_generate_tool_use_id g1).1
        (((req.tools.bind List.head?).map (fun t => t.name)).getD (str "unknown"))
        (jsonLoc (claude_extract_argument req))]
    else
      [ClResponseContent.Text (g1.paragraph).1]
  let mainTokens :=
    if wants_tools then 50 else ContentGenerator.estimate_tokens (g1.paragraph).1
  let stop_reason := if wants_tools then str "tool_use" else str "end_turn"
  { id := id, model := req.model, content := thinkContent ++ mainContent,
    stop_reason := stop_reason,
    usage := { input_tokens := input_tokens, output_tokens := thinkTokens + mainTokens } }

/-- One frame of the claude SSE stream (the `content_index` bookkeeping
and the constant empty placeholders inside block starts are omitted; the
event kinds and every value a claim references are kept). -/
inductive ClEvent
  | messageStart (input_tokens : Nat)
  | blockStartThinking
  | thinkingDelta (s : Str)
  | signatureDelta (s : Str)
  | blockStop
  | blockStartToolUse (id : Str) (name : Str)
  | inputJsonDelta (s : Str)
  | blockStartText
  | textDelta (s : Str)
  | messageDelta (stop_reason : Str) (input_tokens output_tokens : Nat)
  | messageStop
deriving DecidableEq

/-- Groups of at most three (`slice::chunks(3)`). -/
def chunksOf3 : List α → List (List α)
  | [] => []
  | [a] => [[a]]
  | [a, b] => [[a, b]]
  | a :: b :: c :: rest => [a, b, c] :: chunksOf3 rest

/-- `stream_response` (claude): the ordered frame sequence.  The
thinking contribution to `output_tokens` is the estimate of the whole
thinking text (taken before chunking); the text path adds the estimate of
each emitted delta (leading space included); a tool call adds the fixed
50. -/
def claude_stream_events (req : MessagesRequest) (g : ContentGenerator) :
    List ClEvent :=
  let wants_tools := claude_wants_tools req
  let wants_thinking := req.thinking.isSome
  let g0 := (claude_generate_message_id g).2
  let input_tokens := claude_count_input_tokens req
  let thinkEvents :=
    if wants_thinking then
      ClEvent.blockStartThinking ::
        ((chunksOf3 (splitWs (g0.paragraph).1)).map
          (fun chunk => joinSpace chunk ++ [' '])).map ClEvent.thinkingDelta ++
        [ClEvent.signatureDelta (claude_generate_signature (g0.paragraph).2).1,
         ClEvent.blockStop]
    else []
  let thinkTokens :=
    if wants_thinking then ContentGenerator.estimate_tokens (g0.paragraph).1 else 0
  let g1 :=
    if wants_thinking then (claude_generate_signature (g0.paragraph).2).2 else g0
  let mainEvents :=
    if wants_tools then
      [ClEvent.blockStartToolUse (claude_generate_tool_use_id g1).1
         (((req.tools.bind List.head?).map (fun t => t.name)).getD (str "unknown")),
       ClEvent.inputJsonDelta (jsonLoc (claude_extract_argument req)), ClEvent.blockStop]
    else
      ClEvent.blockStartText ::
        (spaceAfterFirst (g1.stream_chunks (min req.max_tokens 100)).1).map
          ClEvent.textDelta ++ [ClEvent.blockStop]
  let mainTokens :=
    if wants_tools then 50
    else ((spaceAfterFirst (g1.stream_chunks (min req.max_tokens 100)).1).map
      ContentGenerator.estimate_tokens).sum
  let stop_reason := if wants_tools then str "tool_use" else str "end_turn"
  ClEvent.messageStart input_tokens :: thinkEvents ++ mainEvents ++
    [ClEvent.messageDelta stop_reason input_tokens (thinkTokens + mainTokens),
     ClEvent.messageStop]

/-! ### Gemini builder (`src/gemini.rs`) -/

/-- `Part` (gemini request; the function-call / function-response values
are opaque JSON the builder never reads, kept as optional strings). -/
structure GemPart where
  text : Option Str
  function_call : Option Str
  function_response : Option Str
deriving DecidableEq

/-- `Content` (gemini request). -/
structure GemContent where
  role : Option Str
  parts : List GemPart
deriving DecidableEq

/-- `GenerationConfig` (only `max_output_tokens` is read). -/
structure GemGenerationConfig where
  max_output_tokens : Option Nat
deriving DecidableEq

/-- `FunctionDeclaration` (gemini). -/
structure GemFunctionDeclaration where
  name : Str
deriving DecidableEq

/-- `ToolDeclaration` (gemini). -/
structure GemToolDeclaration where
  function_declarations : Option (List GemFunctionDeclaration)
deriving DecidableEq

/-- `GenerateContentRequest` (tool_config is never read). -/
structure GenerateContentRequest where
  contents : List GemContent
  system_instruction : Option GemContent
  generation_config : Option GemGenerationConfig
  tools : Option (List GemToolDeclaration)
deriving DecidableEq

/-- `should_call_tool` (gemini): requires the `tools` field, then checks
the first text-bearing part of the last content. -/
def gemini_should_call_tool (req : GenerateContentRequest) : Bool :=
  if req.tools.isNone then false
  else
    match req.contents.getLast? with
    | some last =>
      match last.parts.findSome? (fun p => p.text) with
      | some text =>
        let lower := lowerStr text
        strContains lower (str "weather") || strContains lower (str "search") ||
          strContains lower (str "calculate") || strContains lower (str "what is") ||
          strContains lower (str "find")
      | none => false
    | none => false

/-- `get_first_function_name`. -/
def gemini_get_first_function_name (req : GenerateContentRequest) : Str :=
  ((((req.tools.bind List.head?).bind
      (fun t => t.function_declarations)).bind List.head?).map
    (fun f => f.name)).getD (str "unknown_function")

/-- `extract_argument` (gemini): note it reads the text of the FIRST
part of the last content (unlike `should_call_tool`, which takes the
first text-bearing part). -/
def gemini_extract_argument (req : GenerateContentRequest) : Str :=
  match (req.contents.getLast?.bind (fun c => c.parts.head?)).bind (fun p => p.text) with
  | none => str "unknown"
  | some text =>
    trimMatches (fun ch => ¬ ch.isAlphanum)
      ((((splitWs text).filter (fun w => 2 < byteLen w)).getLast?).getD (str "unknown"))

/-- `FunctionCall` (gemini response). -/
structure GemFunctionCall where
  name : Str
  args : Str
deriving DecidableEq

/-- `ResponsePart` (gemini response). -/
structure GemResponsePart where
  text : Option Str
  function_call : Option GemFunctionCall
deriving DecidableEq

/-- `Candidate`. -/
structure GemCandidate where
  parts : List GemResponsePart
  role : Str
  finish_reason : Option Str
  index : Nat
deriving DecidableEq

/-- `UsageMetadata`. -/
structure GemUsageMetadata where
  prompt_token_count : Nat
  candidates_token_count : Nat
  total_token_count : Nat
deriving DecidableEq, Repr

/-- `GenerateContentResponse`. -/
structure GenerateContentResponse where
  candidates : List GemCandidate
  usage_metadata : GemUsageMetadata
  model_version : Str
deriving DecidableEq

/-- `non_stream_response` (gemini).  Both outcomes use the finish reason
`"STOP"` — in the real Gemini API a function call also terminates with
`STOP`, so `"STOP"` is this provider's sentinel for both normal
completion and tool invocation. -/
def gemini_non_stream_response (model : Str) (req : GenerateContentRequest)
    (g : ContentGenerator) : GenerateContentResponse :=
  let wants_tools := gemini_should_call_tool req
  let max_tokens := ((req.generation_config.bind (fun c => c.max_output_tokens))).getD 100
  let prompt_tokens :=
    ((((req.contents.map (fun c => c.parts)).flatten).filterMap (fun p => p.text)).map
      ContentGenerator.estimate_tokens).sum
  let parts : List GemResponsePart :=
    if wants_tools then
      [{ text := none,
         function_call := some { name := gemini_get_first_function_name req,
                                 args := jsonLoc (gemini_extract_argument req) } }]
    else
      [{ text := some (g.paragraph).1, function_call := none }]
  let finish_reason := str "STOP"
  let completion_tokens :=
    if wants_tools then 12
    else min (ContentGenerator.estimate_tokens (g.paragraph).1) max_tokens
  { candidates := [{ parts := parts, role := str "model",
                     finish_reason := some finish_reason, index := 0 }],
    usage_metadata := { prompt_token_count := prompt_tokens,
                        candidates_token_count := completion_tokens,
                        total_token_count := prompt_tokens + completion_tokens },
    model_version := model }

/-! ### OpenAI Responses builder (`src/openai.rs`)

Only the parts the claims reference are embedded: the tool heuristic
(claim about the shared heuristic) and the streaming event sequence with
its usage accounting (streaming-usage claim).  The non-streaming builder
of this provider is outside every claim's sources. -/

/-- `ContentPart` (openai). -/
structure OAIPart where
  part_type : Str
  text : Option Str
deriving DecidableEq

/-- `MessageContent` (openai). -/
inductive OAIContent
  | Text (t : Str)
  | Parts (ps : List OAIPart)
deriving DecidableEq

/-- `InputMessage`. -/
structure OAIMessage where
  role : Str
  content : OAIContent
deriving DecidableEq

/-- `InputType`. -/
inductive OAIInput
  | Text (t : Str)
  | Messages (ms : List OAIMessage)
deriving DecidableEq

/-- `Tool` (openai). -/
structure OAITool where
  tool_type : Str
  name : Str
deriving DecidableEq

/-- `ResponsesRequest` (fields the builder never reads are omitted). -/
structure ResponsesRequest where
  model : Str
  input : OAIInput
  stream : Bool
  instructions : Option Str
  max_output_tokens : Option Nat
  tools : Option (List OAITool)
deriving DecidableEq

/-- `extract_input_text`. -/
def openai_extract_input_text (input : OAIInput) : Option Str :=
  match input with
  | .Text t => some t
  | .Messages msgs =>
    msgs.getLast?.bind (fun m =>
      match m.content with
      | .Text t => some t
      | .Parts parts => parts.findSome? (fun p => p.text))

/-- `should_call_tool` (openai). -/
def openai_should_call_tool (req : ResponsesRequest) : Bool :=
  match openai_extract_input_text req.input with
  | some text =>
    let lower := lowerStr text
    strContains lower (str "weather") || strContains lower (str "search") ||
      strContains lower (str "calculate") || strContains lower (str "what is") ||
      strContains lower (str "find")
  | none => false

/-- `wants_tools` as computed in `responses`. -/
def openai_wants_tools (req : ResponsesRequest) : Bool :=
  req.tools.isSome && openai_should_call_tool req

/-- `count_input_tokens` (openai). -/
def openai_count_input_tokens (input : OAIInput) : Nat :=
  match input with
  | .Text t => ContentGenerator.estimate_tokens t
  | .Messages msgs =>
    (msgs.map (fun m =>
      match m.content with
      | .Text t => ContentGenerator.estimate_tokens t
      | .Parts parts =>
        ((parts.filterMap (fun p => p.text)).map ContentGenerator.estimate_tokens).sum)).sum

/-- The argument extraction inlined in the openai builder: last
whitespace-separated word of byte length `> 2`, fallback `"unknown"`
(note: no trimming of non-alphanumeric edges here, unlike the other
providers). -/
def openai_extract_argument (req : ResponsesRequest) : Str :=
  match openai_extract_input_text req.input with
  | none => str "unknown"
  | some t => (((splitWs t).filter (fun w => 2 < byteLen w)).getLast?).getD (str "unknown")

/-- `Usage` (openai; the always-zero detail sub-fields are omitted). -/
structure OAIUsage where
  input_tokens : Nat
  output_tokens : Nat
  total_tokens : Nat
deriving DecidableEq, Repr

/-- One frame of the openai SSE stream (sequence numbers, ids and the
constant payload fields are omitted; the event kinds, the delta text, the
accumulated full text and the usage values are kept). -/
inductive OAIEvent
  | created
  | inProgress
  | outputItemAddedFC (name : Str)
  | fcArgsDelta (s : Str)
  | fcArgsDone (s : Str)
  | outputItemDoneFC (name : Str) (arguments : Str)
  | outputItemAddedMsg
  | contentPartAdded
  | textDelta (s : Str)
  | textDone (full : Str)
  | contentPartDone (full : Str)
  | outputItemDoneMsg (full : Str)
  | completed (usage : OAIUsage)
deriving DecidableEq

/-- `stream_response` (openai): the ordered frame sequence.  In the text
path `output_tokens` is the sum of estimates of the RAW chunks (before
the leading space is glued onto every delta after the first), clamped
with `.max(1)`; the tool path reports the fixed 15. -/
def openai_stream_events (req : ResponsesRequest) (g : ContentGenerator) :
    List OAIEvent :=
  let wants_tools := openai_wants_tools req
  let g0 := (g.tool_call_id).2
  let input_tokens := openai_count_input_tokens req.input
  let g1 := (g0.tool_call_id).2
  let content_parts := (g1.stream_chunks (req.max_output_tokens.getD 50)).1
  let deltas := spaceAfterFirst content_parts
  let full_text := deltas.flatten
  let middleEvents :=
    if wants_tools then
      [OAIEvent.outputItemAddedFC
         (((req.tools.bind List.head?).map (fun t => t.name)).getD (str "unknown")),
       OAIEvent.fcArgsDelta (jsonLoc (openai_extract_argument req)),
       OAIEvent.fcArgsDone (jsonLoc (openai_extract_argument req)),
       OAIEvent.outputItemDoneFC
         (((req.tools.bind List.head?).map (fun t => t.name)).getD (str "unknown"))
         (jsonLoc (openai_extract_argument req))]
    else
      OAIEvent.outputItemAddedMsg :: OAIEvent.contentPartAdded ::
        deltas.map OAIEvent.textDelta ++
        [OAIEvent.textDone full_text, OAIEvent.contentPartDone full_text,
         OAIEvent.outputItemDoneMsg full_text]
  let output_tokens :=
    if wants_tools then 15
    else max ((content_parts.map ContentGenerator.estimate_tokens).sum) 1
  OAIEvent.created :: OAIEvent.inProgress :: middleEvents ++
    [OAIEvent.completed { input_tokens := input_tokens, output_tokens := output_tokens,
                          total_tokens := input_tokens + output_tokens }]

/-! ### Operation sequences over the producer (determinism claim)

A run applies a list of producer operations, threading the generator
state.  The ambient entropy source (consumed only by `completion_id`'s
v4 UUID) is passed explicitly: two executions of the same program with
the same seed have the same generator stream but need not sample the
same ambient entropy, so run-to-run determinism is exactly independence
from the entropy argument. -/

/-- One producer operation. -/
inductive GenOp
  | word
  | sentence
  | paragraph
  | streamChunks (n : Nat)
  | toolCallId
  | completionId
  | fingerprint
deriving DecidableEq, Repr

/-- Apply one operation: the produced strings, the next generator state
and the next entropy cursor. -/
def runOp (g : ContentGenerator) (entropy : Nat → Nat) (eidx : Nat) :
    GenOp → List Str × ContentGenerator × Nat
  | .word => let (w, g') := g.word; ([w], g', eidx)
  | .sentence => let (s, g') := g.sentence; ([s], g', eidx)
  | .paragraph => let (p, g') := g.paragraph; ([p], g', eidx)
  | .streamChunks n => let (cs, g') := g.stream_chunks n; (cs, g', eidx)
  | .toolCallId => let (t, g') := g.tool_call_id; ([t], g', eidx)
  | .completionId =>
    let (c, g') := g.completion_id (entropy eidx); ([c], g', eidx + 1)
  | .fingerprint => let (f, g') := g.fingerprint; ([f], g', eidx)

/-- Outputs of a whole operation sequence. -/
def runOps (g : ContentGenerator) (entropy : Nat → Nat) (eidx : Nat) :
    List GenOp → List (List Str)
  | [] => []
  | op :: ops =>
    let (out, g', eidx') := runOp g entropy eidx op
    out :: runOps g' entropy eidx' ops

/-! ### Specification-side rendering of the fault-injection priority -/

/-- The "configured forced fault kind" of the claim. -/
def forcedFault : ForceError → Option ErrorType
  | .None => none
  | .Unauthorized => some .Unauthorized
  | .RateLimit => some .RateLimit
  | .ServerError => some .ServerError
  | .Timeout => some .Timeout

/-- The claim's wording of the fault-injection decision, written
independently of `should_error`: a configured forced fault kind always
wins; otherwise a configured positive threshold that the counter has
reached yields a rate-limit fault; otherwise a positive error probability
triggers one deciding draw and, on a hit, a second draw choosing among
the three injectable kinds; otherwise no fault. -/
def shouldErrorSpec (st : RuntimeState) : Option ErrorType × RuntimeState :=
  match forcedFault st.config.errors.force_error with
  | some e => (some e, st)
  | none =>
    let n := st.config.rate_limit.fail_after_requests
    if 0 < n ∧ n ≤ st.request_count then (some .RateLimit, st)
    else if 0 < st.config.errors.error_rate then
      let (f, r1) := st.rng.f32unit
      if f < st.config.errors.error_rate then
        let (k, r2) := r1.below 3
        (some (match k with
               | 0 => ErrorType.Unauthorized
               | 1 => ErrorType.RateLimit
               | _ => ErrorType.ServerError), { st with rng := r2 })
      else (none, { st with rng := r1 })
    else (none, st)

/-! ### Observation helpers (used only to state the claims) -/

/-- The text the cerebras heuristic inspects. -/
def cerLastText (req : ChatCompletionRequest) : Option Str :=
  req.messages.getLast?.bind (fun m => m.content)

/-- The text the claude heuristic inspects. -/
def claudeLastText (req : MessagesRequest) : Option Str :=
  req.messages.getLast?.bind (fun m => clMessageText m.content)

/-- The text the gemini heuristic inspects. -/
def geminiLastText (req : GenerateContentRequest) : Option Str :=
  req.contents.getLast?.bind (fun c => c.parts.findSome? (fun p => p.text))

/-- Trigger test lifted to an optional extracted text. -/
def hasTrigger (t? : Option Str) : Bool :=
  (t?.map containsTrigger).getD false

/-- The usage carried by the final usage-bearing cerebras fragment. -/
def cerUsageReported (evs : List CerEvent) : Option CerUsage :=
  evs.findSome? (fun e =>
    match e with
    | .finalChunk _ u => u
    | _ => none)

/-- The content deltas actually emitted in a cerebras stream. -/
def cerContentDeltas (evs : List CerEvent) : List Str :=
  evs.filterMap cerContentOf

/-- The usage carried by the final openai `response.completed` fragment. -/
def oaiUsageReported (evs : List OAIEvent) : Option OAIUsage :=
  evs.findSome? (fun e =>
    match e with
    | .completed u => some u
    | _ => none)

/-- The text deltas actually emitted in an openai stream. -/
def oaiTextDeltas (evs : List OAIEvent) : List Str :=
  evs.filterMap (fun e =>
    match e with
    | .textDelta s => some s
    | _ => none)

/-- The usage carried by the claude `message_delta` fragment. -/
def clUsageReported (evs : List ClEvent) : Option ClUsage :=
  evs.findSome? (fun e =>
    match e with
    | .messageDelta _ inp out => some { input_tokens := inp, output_tokens := out }
    | _ => none)

/-- The text deltas actually emitted in a claude stream. -/
def clTextDeltas (evs : List ClEvent) : List Str :=
  evs.filterMap (fun e =>
    match e with
    | .textDelta s => some s
    | _ => none)

/-! ### Concrete fixtures for counterexamples and witnesses -/

/-- A generator over the all-zeroes draw stream. -/
def gZero : ContentGenerator := ContentGenerator.mk' (fun _ => 0)

/-- System view over a given configuration: empty trace, counter at 0,
all-zeroes draw stream. -/
def mkSys (cfg : Config) : Sys :=
  { trace := [], st := { config := cfg, request_count := 0, rng := { stream := fun _ => 0, idx := 0 } } }

/-- `GET /health` with no Authorization header. -/
def reqHealth : MwRequest :=
  { method := .GET, path := str "/health", authorization := none }

/-- Configuration with 7 ms base latency and a forced server error. -/
def cfgLatencyForced : Config :=
  { Config.default with
    server := { port := 8787, latency_ms := 7 }
    errors := { error_rate := 0, force_error := .ServerError } }

/-- Configuration with a forced timeout and a crossed fail-after
threshold of 1. -/
def cfgForcedTimeoutThreshold : Config :=
  { Config.default with
    rate_limit := { enabled := false, requests_per_minute := 60, fail_after_requests := 1 }
    errors := { error_rate := 0, force_error := .Timeout } }

/-- Cerebras request whose last message mentions `weather` while the
`tools` field is present but EMPTY (zero declared tools). -/
def reqCerEmptyTools : ChatCompletionRequest :=
  { model := str "m", messages := [{ role := str "user", content := some (str "weather") }],
    stream := false, stream_options := none, max_tokens := none, tools := some [] }

/-- Cerebras streaming tool request with usage reporting opted in. -/
def reqCerToolStream : ChatCompletionRequest :=
  { model := str "m", messages := [{ role := str "user", content := some (str "weather") }],
    stream := true, stream_options := some { include_usage := true },
    max_tokens := none,
    tools := some [{ tool_type := str "function", function := { name := str "get_weather" } }] }

/-- Cerebras non-streaming tool request (trigger plus one declared tool). -/
def reqCerTool : ChatCompletionRequest :=
  { model := str "m", messages := [{ role := str "user", content := some (str "weather in Tokyo") }],
    stream := false, stream_options := none, max_tokens := none,
    tools := some [{ tool_type := str "function", function := { name := str "get_weather" } }] }

/-- Cerebras non-streaming request with no trigger words. -/
def reqCerPlain : ChatCompletionRequest :=
  { model := str "m", messages := [{ role := str "user", content := some (str "Hello") }],
    stream := false, stream_options := none, max_tokens := none, tools := none }

/-- Claude non-streaming tool request. -/
def reqClTool : MessagesRequest :=
  { model := str "m", messages := [{ role := str "user", content := .Text (str "weather in Tokyo") }],
    max_tokens := 100, stream := false, system := none,
    tools := some [{ name := str "get_weather" }], thinking := none }

/-- Claude non-streaming request with no trigger words. -/
def reqClPlain : MessagesRequest :=
  { model := str "m", messages := [{ role := str "user", content := .Text (str "Hello") }],
    max_tokens := 100, stream := false, system := none, tools := none, thinking := none }

/-- Gemini tool request. -/
def reqGemTool : GenerateContentRequest :=
  { contents := [{ role := some (str "user"),
                   parts := [{ text := some (str "weather in Tokyo"),
                               function_call := none, function_response := none }] }],
    system_instruction := none, generation_config := none,
    tools := some [{ function_declarations := some [{ name := str "get_weather" }] }] }

/-- Gemini request with no trigger words. -/
def reqGemPlain : GenerateContentRequest :=
  { contents := [{ role := some (str "user"),
                   parts := [{ text := some (str "Hello"),
                               function_call := none, function_response := none }] }],
    system_instruction := none, generation_config := none, tools := none }

/-- OpenAI streaming text request with a 4-token budget (used to exhibit
the raw-chunk versus emitted-delta usage divergence). -/
def reqOaiText : ResponsesRequest :=
  { model := str "m", input := .Text (str "Hello"), stream := true,
    instructions := none, max_output_tokens := some 4, tools := none }

/-- Claude streaming text request. -/
def reqClStream : MessagesRequest :=
  { model := str "m", messages := [{ role := str "user", content := .Text (str "Hello") }],
    max_tokens := 4, stream := true, system := none, tools := none, thinking := none }

/-- Draw stream for the openai streaming counterexample: the builder
consumes two identifier draws (indices 0 and 1), then the first
chunk-size draw (index 2) yields 3, every later draw yields 0, so
`stream_chunks 4` produces the chunks `"the the the"` and `"the."`. -/
def streamTwoChunks : Nat → Nat :=
  fun i => if i = 2 then 2 else 0

/-- Generator over `streamTwoChunks`. -/
def gTwoChunks : ContentGenerator := ContentGenerator.mk' streamTwoChunks

/-! ### Lemmas about the string model -/

theorem isPrefixOf_map (f : Char → Char) :
    ∀ {pat s : Str}, pat.isPrefixOf s = true → (pat.map f).isPrefixOf (s.map f) = true
  | [], _, _ => by simp [List.isPrefixOf]
  | p :: ps, [], h => by simp [List.isPrefixOf] at h
  | p :: ps, c :: t, h => by
    rw [List.isPrefixOf_cons₂, Bool.and_eq_true, beq_iff_eq] at h
    obtain ⟨rfl, h2⟩ := h
    rw [List.map_cons, List.map_cons, List.isPrefixOf_cons₂, Bool.and_eq_true, beq_iff_eq]
    exact ⟨rfl, isPrefixOf_map f h2⟩

theorem strContains_map (f : Char → Char) :
    ∀ {s pat : Str}, strContains s pat = true → strContains (s.map f) (pat.map f) = true
  | [], pat, h => by
    simp only [strContains, List.isEmpty_iff] at h
    simp [h, strContains]
  | c :: t, pat, h => by
    rw [strContains, Bool.or_eq_true] at h
    rw [List.map_cons, strContains, Bool.or_eq_true]
    rcases h with h | h
    · exact Or.inl (by simpa using isPrefixOf_map f h)
    · exact Or.inr (strContains_map f h)

theorem splitBy_ne_nil (p : Char → Bool) : ∀ s : Str, splitBy p s ≠ [] := by
  intro s
  induction s with
  | nil => simp [splitBy]
  | cons c t ih =>
    simp only [splitBy]
    by_cases hc : p c
    · simp [hc]
    · simp only [hc, ite_false]
      cases h : splitBy p t with
      | nil => simp
      | cons w ws => simp

theorem splitBy_append_clean (p : Char → Bool) (w : Str) (s : Str)
    (hw : ∀ c ∈ w, p c = false) :
    splitBy p (w ++ s) =
      match splitBy p s with
      | [] => [w]
      | r :: rs => (w ++ r) :: rs := by
  induction w with
  | nil =>
    cases h : splitBy p s with
    | nil => exact absurd h (splitBy_ne_nil p s)
    | cons r rs => simp [h]
  | cons c cw ih =>
    have hc : p c = false := hw c (List.mem_cons_self c cw)
    have hw' : ∀ c ∈ cw, p c = false := fun c hcmem => hw c (List.mem_cons_of_mem _ hcmem)
    rw [List.cons_append]
    simp only [splitBy, hc, ite_false, Bool.false_eq_true]
    rw [ih hw']
    cases h : splitBy p s with
    | nil => simp
    | cons r rs => simp

theorem splitBy_clean (p : Char → Bool) (w : Str) (hw : ∀ c ∈ w, p c = false) :
    splitBy p w = [w] := by
  have h := splitBy_append_clean p w [] hw
  simpa [splitBy] using h

theorem splitBy_length_append_single (p : Char → Bool) (c : Char) (hc : p c = false) :
    ∀ s : Str, (splitBy p (s ++ [c])).length = (splitBy p s).length := by
  intro s
  induction s with
  | nil => simp [splitBy, hc]
  | cons c' t ih =>
    rw [List.cons_append]
    simp only [splitBy]
    by_cases hc' : p c'
    · simp [hc', ih]
    · simp only [hc', ite_false, Bool.false_eq_true]
      cases h : splitBy p (t ++ [c]) with
      | nil => exact absurd h (splitBy_ne_nil p _)
      | cons r rs =>
        cases h' : splitBy p t with
        | nil => exact absurd h' (splitBy_ne_nil p t)
        | cons r' rs' =>
          have := ih
          rw [h, h'] at this
          simpa using this

theorem splitSp_joinSpace :
    ∀ ws : List Str, ws ≠ [] → (∀ w ∈ ws, ' ' ∉ w) →
      splitBy (fun c => c = ' ') (joinSpace ws) = ws
  | [], h, _ => absurd rfl h
  | [w], _, hcl => by
    rw [joinSpace]
    exact splitBy_clean _ w (fun c hc => by
      simp only [decide_eq_false_iff_not]
      intro hceq
      exact hcl w (List.mem_singleton_self w) (hceq ▸ hc))
  | w :: w' :: ws, _, hcl => by
    rw [joinSpace]
    rw [splitBy_append_clean _ w _ (fun c hc => by
      simp only [decide_eq_false_iff_not]
      intro hceq
      exact hcl w (List.mem_cons_self w _) (hceq ▸ hc))]
    have hsp : splitBy (fun c => c = ' ') (' ' :: joinSpace (w' :: ws)) =
        [] :: splitBy (fun c => c = ' ') (joinSpace (w' :: ws)) := by
      simp [splitBy]
    rw [hsp, splitSp_joinSpace (w' :: ws) (by simp)
      (fun v hv => hcl v (List.mem_cons_of_mem _ hv))]
    simp

theorem wordCount_joinSpace (ws : List Str) (h : ws ≠ []) (hcl : ∀ w ∈ ws, ' ' ∉ w) :
    wordCount (joinSpace ws) = ws.length := by
  rw [wordCount, splitSp_joinSpace ws h hcl]

theorem wordCount_append_dot (s : Str) : wordCount (s ++ ['.']) = wordCount s := by
  rw [wordCount, wordCount]
  exact splitBy_length_append_single _ '.' (by decide) s

/-! ### Lemmas about the content generator -/

theorem WORDS_clean : ∀ w ∈ WORDS, w ≠ [] ∧ ' ' ∉ w := by decide

theorem getD_mem_of_lt {α : Type} {l : List α} {n : Nat} {d : α} (h : n < l.length) :
    l.getD n d ∈ l := by
  rw [List.getD_eq_getElem l d h]
  exact List.getElem_mem h

theorem word_mem (g : ContentGenerator) : (g.word).1 ∈ WORDS := by
  rw [ContentGenerator.word]
  exact getD_mem_of_lt (Nat.mod_lt _ (by decide))

theorem word_tpc (g : ContentGenerator) :
    (g.word).2.tokens_per_chunk = g.tokens_per_chunk := rfl

theorem wordList_tpc :
    ∀ (k : Nat) (g : ContentGenerator),
      (g.wordList k).2.tokens_per_chunk = g.tokens_per_chunk
  | 0, _ => rfl
  | k + 1, g => by
    rw [ContentGenerator.wordList]
    exact (wordList_tpc k (g.word).2).trans (word_tpc g)

theorem wordList_length :
    ∀ (k : Nat) (g : ContentGenerator), (g.wordList k).1.length = k
  | 0, _ => rfl
  | k + 1, g => by
    rw [ContentGenerator.wordList]
    simpa using wordList_length k (g.word).2

theorem wordList_mem :
    ∀ (k : Nat) (g : ContentGenerator) (w : Str), w ∈ (g.wordList k).1 → w ∈ WORDS
  | 0, _, _, h => by simp [ContentGenerator.wordList] at h
  | k + 1, g, w, h => by
    rw [ContentGenerator.wordList] at h
    simp only [List.mem_cons] at h
    rcases h with rfl | h
    · exact word_mem g
    · exact wordList_mem k (g.word).2 w h

theorem words_tpc (g : ContentGenerator) (k : Nat) :
    (g.words k).2.tokens_per_chunk = g.tokens_per_chunk := wordList_tpc k g

theorem words_wordCount (g : ContentGenerator) (k : Nat) (hk : 1 ≤ k) :
    wordCount (g.words k).1 = k := by
  rw [ContentGenerator.words]
  have hlen := wordList_length k g
  have hne : (g.wordList k).1 ≠ [] := by
    intro h
    rw [h] at hlen
    simp at hlen
    omega
  rw [wordCount_joinSpace _ hne
    (fun w hw => (WORDS_clean w (wordList_mem k g w hw)).2)]
  exact hlen

/-- Invariant of the `stream_chunks` loop: the word counts of the
produced chunks sum to exactly the remaining budget, each chunk has
between 1 and `tokens_per_chunk` words, and the chunk list is empty
exactly for a zero budget. -/
theorem streamChunksAux_spec :
    ∀ (fuel : Nat) (g : ContentGenerator) (r : Nat), r ≤ fuel →
      1 ≤ g.tokens_per_chunk →
      (((ContentGenerator.streamChunksAux fuel g r).1.map wordCount).sum = r ∧
       (∀ c ∈ (ContentGenerator.streamChunksAux fuel g r).1,
          1 ≤ wordCount c ∧ wordCount c ≤ g.tokens_per_chunk) ∧
       ((ContentGenerator.streamChunksAux fuel g r).1 = [] ↔ r = 0))
  | 0, g, r, hr, _ => by
    have : r = 0 := Nat.le_zero.mp hr
    subst this
    simp [ContentGenerator.streamChunksAux]
  | fuel + 1, g, r, hr, htpc => by
    by_cases hr0 : r = 0
    · subst hr0
      simp [ContentGenerator.streamChunksAux]
    · have hmax : max g.tokens_per_chunk 1 = g.tokens_per_chunk :=
        Nat.max_eq_left htpc
      rw [ContentGenerator.streamChunksAux]
      simp only [hr0, ite_false]
      set d := (g.rng.rangeIncl 1 (max g.tokens_per_chunk 1)).1 with hd
      have hd1 : 1 ≤ d := by
        rw [hd, Rng.rangeIncl]
        simp
      have hdtpc : d ≤ g.tokens_per_chunk := by
        rw [hd, Rng.rangeIncl, hmax]
        simp only [Rng.next]
        have : (g.rng.stream g.rng.idx) % (g.tokens_per_chunk + 1 - 1) <
            g.tokens_per_chunk + 1 - 1 := Nat.mod_lt _ (by omega)
        omega
      set cs := min r d with hcs
      have hcs1 : 1 ≤ cs := by
        rw [hcs]
        exact le_min (by omega) hd1
      have hcsr : cs ≤ r := Nat.min_le_left r d
      have hcstpc : cs ≤ g.tokens_per_chunk := le_trans (Nat.min_le_right r d) hdtpc
      set g1 : ContentGenerator := { g with rng := (g.rng.rangeIncl 1 (max g.tokens_per_chunk 1)).2 } with hg1
      have hg1tpc : g1.tokens_per_chunk = g.tokens_per_chunk := rfl
      have hwc : wordCount (g1.words cs).1 = cs := words_wordCount g1 cs hcs1
      have hg2tpc : (g1.words cs).2.tokens_per_chunk = g.tokens_per_chunk := words_tpc g1 cs
      have hrec := streamChunksAux_spec fuel (g1.words cs).2 (r - cs)
        (by omega) (by rw [hg2tpc]; exact htpc)
      rw [hg2tpc] at hrec
      obtain ⟨hsum, hbound, _⟩ := hrec
      refine ⟨?_, ?_, ?_⟩
      · simp only [List.map_cons, List.sum_cons, hwc, hsum]
        omega
      · intro c hc
        simp only [List.mem_cons] at hc
        rcases hc with rfl | hc
        · exact ⟨by rw [hwc]; exact hcs1, by rw [hwc]; exact hcstpc⟩
        · exact hbound c hc
      · simp

theorem pushDotLast_map_wordCount :
    ∀ cs : List Str, (ContentGenerator.pushDotLast cs).map wordCount = cs.map wordCount
  | [] => rfl
  | [c] => by simp [ContentGenerator.pushDotLast, wordCount_append_dot]
  | c :: c' :: rest => by
    rw [ContentGenerator.pushDotLast]
    simp only [List.map_cons]
    rw [show (ContentGenerator.pushDotLast (c' :: rest)).map wordCount =
        (c' :: rest).map wordCount from pushDotLast_map_wordCount (c' :: rest)]
    simp

theorem pushDotLast_eq_nil_iff :
    ∀ cs : List Str, ContentGenerator.pushDotLast cs = [] ↔ cs = []
  | [] => by simp [ContentGenerator.pushDotLast]
  | [c] => by simp [ContentGenerator.pushDotLast]
  | c :: c' :: rest => by simp [ContentGenerator.pushDotLast]

theorem pushDotLast_getLast? :
    ∀ cs : List Str,
      (ContentGenerator.pushDotLast cs).getLast? = cs.getLast?.map (fun c => c ++ ['.'])
  | [] => rfl
  | [c] => rfl
  | c :: c' :: rest => by
    rw [ContentGenerator.pushDotLast]
    cases h : ContentGenerator.pushDotLast (c' :: rest) with
    | nil =>
      exact absurd ((pushDotLast_eq_nil_iff (c' :: rest)).mp h) (by simp)
    | cons x xs =>
      rw [List.getLast?_cons_cons, ← h, pushDotLast_getLast? (c' :: rest),
        List.getLast?_cons_cons]

/-- C2: for a positive budget `n`, `stream_chunks` returns a non-empty
chunk list whose chunks each hold between 1 and `tokens_per_chunk`
words, whose per-chunk word counts sum to exactly `n` (hence no partial
accumulation ever exceeds `n`), and whose final chunk ends with a
period; a zero budget yields the empty list. -/
theorem stream_chunks_spec (g : ContentGenerator) (n : Nat)
    (htpc : 1 ≤ g.tokens_per_chunk) :
    ((g.stream_chunks 0).1 = []) ∧
    (0 < n →
      (g.stream_chunks n).1 ≠ [] ∧
      (∀ c ∈ (g.stream_chunks n).1,
        1 ≤ wordCount c ∧ wordCount c ≤ g.tokens_per_chunk) ∧
      (((g.stream_chunks n).1.map wordCount).sum = n) ∧
      (∃ last, (g.stream_chunks n).1.getLast? = some last ∧
        last.getLast? = some '.')) := by
  constructor
  · simp [ContentGenerator.stream_chunks, ContentGenerator.streamChunksAux,
      ContentGenerator.pushDotLast]
  · intro hn
    obtain ⟨hsum, hbound, hnil⟩ := streamChunksAux_spec n g n le_rfl htpc
    have hne : (ContentGenerator.streamChunksAux n g n).1 ≠ [] := by
      intro h
      exact absurd (hnil.mp h) (by omega)
    rw [ContentGenerator.stream_chunks]
    refine ⟨?_, ?_, ?_, ?_⟩
    · intro h
      exact hne ((pushDotLast_eq_nil_iff _).mp h)
    · intro c hc
      have hmem : wordCount c ∈
          (ContentGenerator.pushDotLast (ContentGenerator.streamChunksAux n g n).1).map wordCount :=
        List.mem_map_of_mem wordCount hc
      rw [pushDotLast_map_wordCount] at hmem
      obtain ⟨c₀, hc₀, heq⟩ := List.mem_map.mp hmem
      have := hbound c₀ hc₀
      omega
    · rw [pushDotLast_map_wordCount]
      exact hsum
    · rw [pushDotLast_getLast?]
      obtain ⟨l, hl⟩ := Option.isSome_iff_exists.mp
        (List.getLast?_isSome.mpr hne)
      exact ⟨l ++ ['.'], by rw [hl]; rfl, List.getLast?_concat l⟩

/-- Witness for `stream_chunks_spec` at the all-zeroes generator and a
budget of 5. -/
theorem stream_chunks_spec_witness :
    1 ≤ gZero.tokens_per_chunk ∧
    (((gZero.stream_chunks 0).1 = []) ∧
    (0 < 5 →
      (gZero.stream_chunks 5).1 ≠ [] ∧
      (∀ c ∈ (gZero.stream_chunks 5).1,
        1 ≤ wordCount c ∧ wordCount c ≤ gZero.tokens_per_chunk) ∧
      (((gZero.stream_chunks 5).1.map wordCount).sum = 5) ∧
      (∃ last, (gZero.stream_chunks 5).1.getLast? = some last ∧
        last.getLast? = some '.'))) :=
  ⟨by decide, stream_chunks_spec gZero 5 (by decide)⟩

/-! ### Lemmas about the `f32` model of `estimate_tokens` -/

theorem bitsAux_zero : ∀ f : Nat, bitsAux f 0 = 0
  | 0 => rfl
  | _ + 1 => by simp [bitsAux]

theorem bitsAux_congr :
    ∀ (f1 f2 n : Nat), n ≤ f1 → n ≤ f2 → bitsAux f1 n = bitsAux f2 n
  | 0, f2, n, h1, _ => by
    have : n = 0 := Nat.le_zero.mp h1
    subst this
    rw [bitsAux_zero, bitsAux_zero]
  | f1 + 1, f2, n, h1, h2 => by
    by_cases hn : n = 0
    · subst hn
      rw [bitsAux_zero, bitsAux_zero]
    · obtain ⟨f2', rfl⟩ : ∃ f2', f2 = f2' + 1 := ⟨f2 - 1, by omega⟩
      simp only [bitsAux, hn, ite_false]
      have hdiv : n / 2 < n := Nat.div_lt_self (by omega) one_lt_two
      rw [bitsAux_congr f1 f2' (n / 2) (by omega) (by omega)]

theorem bits_rec (n : Nat) : bits n = if n = 0 then 0 else bits (n / 2) + 1 := by
  by_cases hn : n = 0
  · subst hn
    simp [bits, bitsAux]
  · obtain ⟨m, rfl⟩ : ∃ m, n = m + 1 := ⟨n - 1, by omega⟩
    simp only [hn, ite_false]
    show bitsAux (m + 1) (m + 1) = bits ((m + 1) / 2) + 1
    simp only [bitsAux, hn, ite_false]
    rw [bits, bitsAux_congr m ((m + 1) / 2) ((m + 1) / 2) (by omega) le_rfl]

theorem bits_lt (n : Nat) : n < 2 ^ bits n := by
  induction n using Nat.strong_induction_on with
  | _ n ih =>
    rw [bits_rec]
    by_cases hn : n = 0
    · simp [hn]
    · simp only [hn, ite_false]
      have hdiv : n / 2 < n := Nat.div_lt_self (by omega) one_lt_two
      have h2 := ih (n / 2) hdiv
      rw [pow_succ]
      omega

theorem bits_le_iff {n k : Nat} : bits n ≤ k ↔ n < 2 ^ k := by
  constructor
  · intro h
    exact lt_of_lt_of_le (bits_lt n) (Nat.pow_le_pow_right (by omega) h)
  · intro h
    induction n using Nat.strong_induction_on generalizing k with
    | _ n ih =>
      rw [bits_rec]
      by_cases hn : n = 0
      · simp [hn]
      · simp only [hn, ite_false]
        have hk : 1 ≤ k := by
          by_contra hk
          have : k = 0 := by omega
          subst this
          simp at h
          omega
        have hdiv : n / 2 < n := Nat.div_lt_self (by omega) one_lt_two
        have hhalf : n / 2 < 2 ^ (k - 1) := by
          have hpow : 2 ^ k = 2 * 2 ^ (k - 1) := by
            rw [← pow_succ']
            congr 1
            omega
          omega
        have := ih (n / 2) hdiv hhalf
        omega

theorem bits_mono {m n : Nat} (h : m ≤ n) : bits m ≤ bits n :=
  bits_le_iff.mpr (lt_of_le_of_lt h (bits_lt n))

theorem bits_pos {n : Nat} (h : n ≠ 0) : 1 ≤ bits n := by
  rw [bits_rec]
  simp [h]

theorem two_pow_bits_le {n : Nat} (h : n ≠ 0) : 2 ^ (bits n - 1) ≤ n := by
  induction n using Nat.strong_induction_on with
  | _ n ih =>
    rw [bits_rec]
    simp only [h, ite_false]
    simp only [Nat.add_sub_cancel]
    by_cases hh : n / 2 = 0
    · rw [hh]
      have h0 : bits 0 = 0 := rfl
      rw [h0, pow_zero]
      omega
    · have hdiv : n / 2 < n := Nat.div_lt_self (by omega) one_lt_two
      have hrec := ih (n / 2) hdiv hh
      have hp := bits_pos hh
      have hpow : 2 ^ bits (n / 2) = 2 * 2 ^ (bits (n / 2) - 1) := by
        rw [← pow_succ']
        congr 1
        omega
      omega

/-- Same-offset round-to-nearest-even is monotone in the remainder. -/
theorem rne_mono (u q rm rn : Nat) (hr : rm ≤ rn) :
    (if 2 * rm < u then q * u else if u < 2 * rm then (q + 1) * u
     else if q % 2 = 0 then q * u else (q + 1) * u) ≤
    (if 2 * rn < u then q * u else if u < 2 * rn then (q + 1) * u
     else if q % 2 = 0 then q * u else (q + 1) * u) := by
  have hqu : (q + 1) * u = q * u + u := by ring
  rw [hqu]
  set x := q * u with hx
  split_ifs <;> omega

theorem roundF32_lb (n : Nat) :
    n / 2 ^ (bits n - 24) * 2 ^ (bits n - 24) ≤ roundF32 n := by
  simp only [roundF32]
  have h : n / 2 ^ (bits n - 24) * 2 ^ (bits n - 24) ≤
      (n / 2 ^ (bits n - 24) + 1) * 2 ^ (bits n - 24) :=
    Nat.mul_le_mul_right _ (by omega)
  split_ifs <;> omega

theorem roundF32_ub (n : Nat) :
    roundF32 n ≤ (n / 2 ^ (bits n - 24) + 1) * 2 ^ (bits n - 24) := by
  simp only [roundF32]
  have h : n / 2 ^ (bits n - 24) * 2 ^ (bits n - 24) ≤
      (n / 2 ^ (bits n - 24) + 1) * 2 ^ (bits n - 24) :=
    Nat.mul_le_mul_right _ (by omega)
  split_ifs <;> omega

theorem roundF32_le_pow (n : Nat) : roundF32 n ≤ 2 ^ bits n := by
  refine le_trans (roundF32_ub n) ?_
  by_cases hb : bits n ≤ 24
  · have : bits n - 24 = 0 := by omega
    rw [this, pow_zero]
    simpa using bits_lt n
  · have hsplit : 2 ^ bits n = 2 ^ 24 * 2 ^ (bits n - 24) := by
      rw [← pow_add]
      congr 1
      omega
    have hu : 0 < 2 ^ (bits n - 24) := Nat.pos_pow_of_pos _ (by omega)
    have hq : n / 2 ^ (bits n - 24) < 2 ^ 24 := by
      rw [Nat.div_lt_iff_lt_mul hu]
      calc n < 2 ^ bits n := bits_lt n
        _ = 2 ^ 24 * 2 ^ (bits n - 24) := hsplit
    rw [hsplit]
    exact Nat.mul_le_mul_right _ (by omega)

theorem pow_le_roundF32 {n : Nat} (h : n ≠ 0) : 2 ^ (bits n - 1) ≤ roundF32 n := by
  refine le_trans ?_ (roundF32_lb n)
  by_cases hb : bits n ≤ 24
  · have h0 : bits n - 24 = 0 := by omega
    rw [h0, pow_zero, Nat.div_one, mul_one]
    exact two_pow_bits_le h
  · have hu : 0 < 2 ^ (bits n - 24) := Nat.pos_pow_of_pos _ (by omega)
    have hsplit : 2 ^ (bits n - 1) = 2 ^ 23 * 2 ^ (bits n - 24) := by
      rw [← pow_add]
      congr 1
      omega
    have hq : 2 ^ 23 ≤ n / 2 ^ (bits n - 24) := by
      rw [Nat.le_div_iff_mul_le hu]
      calc 2 ^ 23 * 2 ^ (bits n - 24) = 2 ^ (bits n - 1) := hsplit.symm
        _ ≤ n := two_pow_bits_le h
    rw [hsplit]
    exact Nat.mul_le_mul_right _ hq

theorem roundF32_mono_same {m n : Nat} (hb : bits m = bits n) (h : m ≤ n) :
    roundF32 m ≤ roundF32 n := by
  have hu : 0 < 2 ^ (bits n - 24) := Nat.pos_pow_of_pos _ (by omega)
  have hqle : m / 2 ^ (bits n - 24) ≤ n / 2 ^ (bits n - 24) :=
    Nat.div_le_div_right h
  rcases Nat.lt_or_ge (m / 2 ^ (bits n - 24)) (n / 2 ^ (bits n - 24)) with hq | hq
  · calc roundF32 m ≤ (m / 2 ^ (bits m - 24) + 1) * 2 ^ (bits m - 24) := roundF32_ub m
      _ = (m / 2 ^ (bits n - 24) + 1) * 2 ^ (bits n - 24) := by rw [hb]
      _ ≤ n / 2 ^ (bits n - 24) * 2 ^ (bits n - 24) :=
        Nat.mul_le_mul_right _ (by omega)
      _ ≤ roundF32 n := roundF32_lb n
  · have hqeq : m / 2 ^ (bits n - 24) = n / 2 ^ (bits n - 24) := by omega
    have hrle : m % 2 ^ (bits n - 24) ≤ n % 2 ^ (bits n - 24) := by
      have hm := Nat.div_add_mod m (2 ^ (bits n - 24))
      have hn' := Nat.div_add_mod n (2 ^ (bits n - 24))
      rw [hqeq] at hm
      omega
    simp only [roundF32, hb, hqeq]
    exact rne_mono _ _ _ _ hrle

theorem roundF32_mono {m n : Nat} (h : m ≤ n) : roundF32 m ≤ roundF32 n := by
  rcases Nat.lt_or_ge (bits m) (bits n) with hb | hb
  · have hn0 : n ≠ 0 := by
      intro h0
      subst h0
      have : bits 0 = 0 := rfl
      omega
    calc roundF32 m ≤ 2 ^ bits m := roundF32_le_pow m
      _ ≤ 2 ^ (bits n - 1) := Nat.pow_le_pow_right (by omega) (by omega)
      _ ≤ roundF32 n := pow_le_roundF32 hn0
  · have : bits m = bits n := le_antisymm (bits_mono h) hb
    exact roundF32_mono_same this h

theorem roundF32_id_of_le {n : Nat} (h : n ≤ 2 ^ 24) : roundF32 n = n := by
  rcases Nat.lt_or_ge n (2 ^ 24) with hlt | hge
  · have hb : bits n ≤ 24 := bits_le_iff.mpr hlt
    have h0 : bits n - 24 = 0 := by omega
    simp only [roundF32, h0, pow_zero, Nat.div_one, Nat.mod_one, mul_one]
    simp
  · have : n = 2 ^ 24 := by omega
    subst this
    decide

theorem estimateTokensLen_eq {n : Nat} (h : n ≤ 2 ^ 24) :
    estimateTokensLen n = (n + 3) / 4 := by
  rw [estimateTokensLen, roundF32_id_of_le h]
  have : (n + 3) / 4 ≤ 2 ^ 32 - 1 := by
    have := Nat.div_le_div_right (c := 4) (show n + 3 ≤ 2 ^ 24 + 3 by omega)
    omega
  omega

theorem estimateTokensLen_mono {m n : Nat} (h : m ≤ n) :
    estimateTokensLen m ≤ estimateTokensLen n := by
  rw [estimateTokensLen, estimateTokensLen]
  have := roundF32_mono h
  have hd : (roundF32 m + 3) / 4 ≤ (roundF32 n + 3) / 4 :=
    Nat.div_le_div_right (by omega)
  omega

theorem byteLen_replicate (k : Nat) (c : Char) :
    byteLen (List.replicate k c) = k * charBytes c := by
  induction k with
  | zero => simp [byteLen]
  | succ k ih =>
    rw [List.replicate_succ, byteLen, List.map_cons, List.sum_cons]
    rw [byteLen] at ih
    rw [ih]
    ring

/-- C9 (amended): `estimate_tokens(s)` equals `ceil(byte_length(s) / 4)`
for every string of at most `2^24` bytes (beyond that the `f32`
conversion of the length rounds, and the two sides can differ), and
`estimate_tokens` is monotonic in byte length without restriction. -/
theorem estimate_tokens_spec :
    (∀ s : Str, byteLen s ≤ 2 ^ 24 →
      ContentGenerator.estimate_tokens s = (byteLen s + 3) / 4) ∧
    (∀ s t : Str, byteLen s ≤ byteLen t →
      ContentGenerator.estimate_tokens s ≤ ContentGenerator.estimate_tokens t) := by
  constructor
  · intro s hs
    rw [ContentGenerator.estimate_tokens, estimateTokensLen_eq hs]
  · intro s t hst
    rw [ContentGenerator.estimate_tokens, ContentGenerator.estimate_tokens]
    exact estimateTokensLen_mono hst

/-- C9 counterexample: at byte length `2^24 + 1` (a 16 MiB + 1 ASCII
string) the `f32` rounding inside `estimate_tokens` rounds the length
down to `2^24` (ties to even), so the result is `2^22` while
`ceil(len / 4)` is `2^22 + 1`. -/
theorem estimate_tokens_counterexample :
    ContentGenerator.estimate_tokens (List.replicate (2 ^ 24 + 1) 'a') = 2 ^ 22 ∧
    (byteLen (List.replicate (2 ^ 24 + 1) 'a') + 3) / 4 = 2 ^ 22 + 1 ∧
    (2 ^ 22 : Nat) ≠ 2 ^ 22 + 1 := by
  have hb : byteLen (List.replicate (2 ^ 24 + 1) 'a') = 2 ^ 24 + 1 := by
    rw [byteLen_replicate]
    decide
  refine ⟨?_, ?_, by decide⟩
  · rw [ContentGenerator.estimate_tokens, hb]
    decide
  · rw [hb]
    decide

/-- Witness for `estimate_tokens_spec` at two short strings. -/
theorem estimate_tokens_spec_witness :
    (byteLen (str "hello") ≤ 2 ^ 24 ∧
      ContentGenerator.estimate_tokens (str "hello") = (byteLen (str "hello") + 3) / 4) ∧
    (byteLen (str "hi") ≤ byteLen (str "hello") ∧
      ContentGenerator.estimate_tokens (str "hi") ≤
        ContentGenerator.estimate_tokens (str "hello")) :=
  ⟨⟨by decide, estimate_tokens_spec.1 (str "hello") (by decide)⟩,
   ⟨by decide, estimate_tokens_spec.2 (str "hi") (str "hello") (by decide)⟩⟩

/-! ### Fault-injection priority (claims C3, C4) -/

theorem should_error_request_count (st : RuntimeState) :
    (st.should_error).2.request_count = st.request_count := by
  rw [RuntimeState.should_error]
  cases st.config.errors.force_error
  case None =>
    split_ifs with h1 h2
    · rfl
    · simp only [Rng.f32unit, Rng.next, Rng.below]
      split_ifs <;> rfl
    · rfl
  all_goals rfl

/-- C3: the fault-injection decision of `should_error` coincides with the
claim's priority list (rendered independently as `shouldErrorSpec`): a
configured forced kind always wins; otherwise a configured positive
threshold already reached by the counter injects a rate-limit fault;
otherwise a positive error probability triggers one deciding draw and,
on a hit, a second draw picking among unauthorized, rate-limit and
server error; otherwise no fault, and the request proceeds. -/
theorem should_error_priority (st : RuntimeState) :
    st.should_error = shouldErrorSpec st := by
  rw [RuntimeState.should_error, shouldErrorSpec]
  cases st.config.errors.force_error <;> rfl

/-- C4 (amended): once the request counter has reached a configured
positive `fail_after_requests` threshold, every later request — at any
larger counter value — is faulted and never succeeds; the injected fault
is the rate-limit fault whenever no forced fault kind is configured (a
configured forced kind takes priority and is injected instead, so the
request still never succeeds); and the pipeline increments the counter by
exactly one per request and never decrements it, so the threshold
condition, once crossed, never resets. -/
theorem fail_after_requests_spec :
    (∀ (st : RuntimeState) (k : Nat),
      st.config.errors.force_error = .None →
      0 < st.config.rate_limit.fail_after_requests →
      st.config.rate_limit.fail_after_requests ≤ st.request_count →
      (RuntimeState.should_error
        { st with request_count := st.request_count + k }).1 = some .RateLimit) ∧
    (∀ st : RuntimeState,
      0 < st.config.rate_limit.fail_after_requests →
      st.config.rate_limit.fail_after_requests ≤ st.request_count →
      (st.should_error).1 ≠ none) ∧
    (∀ (req : MwRequest) (sys : Sys),
      (handle_request req sys).2.st.request_count = sys.st.request_count + 1) := by
  refine ⟨?_, ?_, ?_⟩
  · intro st k hf hN hcount
    rw [RuntimeState.should_error]
    simp only [hf]
    have : 0 < st.config.rate_limit.fail_after_requests ∧
        st.config.rate_limit.fail_after_requests ≤ st.request_count + k := ⟨hN, by omega⟩
    simp [this]
  · intro st hN hcount
    rw [RuntimeState.should_error]
    cases st.config.errors.force_error <;> simp
    have : 0 < st.config.rate_limit.fail_after_requests ∧
        st.config.rate_limit.fail_after_requests ≤ st.request_count := ⟨hN, hcount⟩
    simp [this]
  · intro req sys
    have hroute : ∀ sys' : Sys, (route_handlers req sys').2.st = sys'.st := by
      intro sys'
      rw [route_handlers]
      split_ifs <;> rfl
    rw [handle_request, latency_middleware, error_middleware]
    simp only []
    split_ifs
    all_goals try split
    all_goals try rfl
    all_goals
      simp [hroute, should_error_request_count, RuntimeState.increment_requests]

/-- C4 counterexample: with a forced timeout configured alongside a
crossed fail-after threshold of 1 at counter value 5, the injected fault
is the timeout, not the rate-limit fault the claim promises. -/
theorem fail_after_requests_counterexample :
    (RuntimeState.should_error
      { config := cfgForcedTimeoutThreshold, request_count := 5,
        rng := { stream := fun _ => 0, idx := 0 } }).1 = some ErrorType.Timeout ∧
    some ErrorType.Timeout ≠ some ErrorType.RateLimit := by
  constructor
  · rfl
  · decide

/-- Witness for `fail_after_requests_spec` at a concrete crossed state. -/
theorem fail_after_requests_spec_witness :
    ((RuntimeState.should_error
      { config :=
          { Config.default with
            rate_limit := { enabled := false, requests_per_minute := 60,
                            fail_after_requests := 1 } },
        request_count := 1 + 3, rng := { stream := fun _ => 0, idx := 0 } }).1 =
      some .RateLimit) ∧
    ((RuntimeState.should_error
      { config :=
          { Config.default with
            rate_limit := { enabled := false, requests_per_minute := 60,
                            fail_after_requests := 1 } },
        request_count := 1, rng := { stream := fun _ => 0, idx := 0 } }).1 ≠ none) ∧
    ((handle_request reqHealth (mkSys Config.default)).2.st.request_count =
      (mkSys Config.default).st.request_count + 1) :=
  ⟨fail_after_requests_spec.1
      { config :=
          { Config.default with
            rate_limit := { enabled := false, requests_per_minute := 60,
                            fail_after_requests := 1 } },
        request_count := 1, rng := { stream := fun _ => 0, idx := 0 } } 3 rfl
      (by decide) (by decide),
   fail_after_requests_spec.2.1 _ (by decide) (by decide),
   fail_after_requests_spec.2.2 reqHealth (mkSys Config.default)⟩


/-! ### The middleware pipeline order (claims C1, C10) -/

theorem should_error_config (st : RuntimeState) :
    (st.should_error).2.config = st.config := by
  rw [RuntimeState.should_error]
  cases st.config.errors.force_error
  case None =>
    split_ifs with h1 h2
    · rfl
    · simp only [Rng.f32unit, Rng.next, Rng.below]
      split_ifs <;> rfl
    · rfl
  all_goals rfl

theorem route_handlers_trace (req : MwRequest) (s : Sys) :
    (route_handlers req s).2.trace = s.trace ++
      (if (req.method = .GET ∧ req.path = str "/health") ∨
          (req.method = .POST ∧ req.path = str "/v1/chat/completions" ∧
            s.st.config.providers.cerebras) ∨
          (req.method = .POST ∧ (str "/v1beta/models/").isPrefixOf req.path ∧
            s.st.config.providers.gemini) ∨
          (req.method = .POST ∧ req.path = str "/v1/messages" ∧
            s.st.config.providers.claude) ∨
          (req.method = .POST ∧ req.path = str "/v1/responses" ∧
            s.st.config.providers.openai)
       then [Stage.dispatch] else []) := by
  rw [route_handlers]
  by_cases hOr : (req.method = .GET ∧ req.path = str "/health") ∨
      (req.method = .POST ∧ req.path = str "/v1/chat/completions" ∧
        s.st.config.providers.cerebras) ∨
      (req.method = .POST ∧ (str "/v1beta/models/").isPrefixOf req.path ∧
        s.st.config.providers.gemini) ∨
      (req.method = .POST ∧ req.path = str "/v1/messages" ∧
        s.st.config.providers.claude) ∨
      (req.method = .POST ∧ req.path = str "/v1/responses" ∧
        s.st.config.providers.openai)
  · rw [if_pos hOr]
    split_ifs with h1 h2 h3 h4 h5
    · simp
    · simp
    · simp
    · simp
    · simp
    · refine absurd hOr ?_
      rintro (h | h | h | h | h)
      exacts [h1 h, h2 h, h3 h, h4 h, h5 h]
  · rw [if_neg hOr]
    split_ifs with h1 h2 h3 h4 h5
    · exact absurd (Or.inl h1) hOr
    · exact absurd (Or.inr (Or.inl h2)) hOr
    · exact absurd (Or.inr (Or.inr (Or.inl h3))) hOr
    · exact absurd (Or.inr (Or.inr (Or.inr (Or.inl h4)))) hOr
    · exact absurd (Or.inr (Or.inr (Or.inr (Or.inr h5)))) hOr
    · simp

/-- Trace contribution of `error_middleware`: counting and the auth
check always run, in that order; the fault check runs unless auth
failed; dispatch happens only when no fault was produced and a route
matches. -/
theorem error_middleware_trace (req : MwRequest) (sys' : Sys) :
    (error_middleware route_handlers req sys').2.trace =
      sys'.trace ++ [Stage.count, Stage.auth] ++
      (if (sys'.st.increment_requests).2.config.auth.require_auth ∧
          ¬ (sys'.st.increment_requests).2.is_valid_key (extractBearer req.authorization) then
        ([] : List Stage)
       else
        [Stage.fault] ++
        (match ((sys'.st.increment_requests).2.should_error).1 with
         | some _ => []
         | none =>
           if (req.method = .GET ∧ req.path = str "/health") ∨
              (req.method = .POST ∧ req.path = str "/v1/chat/completions" ∧
                sys'.st.config.providers.cerebras) ∨
              (req.method = .POST ∧ (str "/v1beta/models/").isPrefixOf req.path ∧
                sys'.st.config.providers.gemini) ∨
              (req.method = .POST ∧ req.path = str "/v1/messages" ∧
                sys'.st.config.providers.claude) ∨
              (req.method = .POST ∧ req.path = str "/v1/responses" ∧
                sys'.st.config.providers.openai)
           then [Stage.dispatch] else [])) := by
  rw [error_middleware]
  simp only []
  by_cases hauth : (sys'.st.increment_requests).2.config.auth.require_auth = true ∧
      ¬ (sys'.st.increment_requests).2.is_valid_key (extractBearer req.authorization) = true
  · simp [hauth]
  · simp only [hauth, if_false]
    cases hse : ((sys'.st.increment_requests).2.should_error).1 with
    | some e => simp [hse]
    | none =>
      simp only [hse]
      rw [route_handlers_trace]
      simp only [should_error_config, RuntimeState.increment_requests]
      simp

/-- C1 (amended): per request the executed stages are, in order: the
latency delay when a positive base latency is configured — it runs FIRST
because the latency layer is added to the router after the error layer
and axum makes the last-added layer the outermost one — then the
request-counter increment, the auth check, the fault-injection check and
dispatch to the matched route handler.  A fault in the auth or
fault-injection stage short-circuits: the trace stops at that stage, no
handler (builder) is reached, and the result is one complete
provider-shaped error response whose status encodes the fault kind.
Contrary to the original claim, the faulted request has already incurred
the latency stage, which precedes even the counter increment. -/
theorem middleware_pipeline_spec (req : MwRequest) (sys : Sys) :
    ((handle_request req sys).2.trace =
      sys.trace ++
      (if 0 < sys.st.latency_ms then [Stage.latency sys.st.latency_ms] else []) ++
      [Stage.count, Stage.auth] ++
      (if (sys.st.increment_requests).2.config.auth.require_auth ∧
          ¬ (sys.st.increment_requests).2.is_valid_key (extractBearer req.authorization) then
        ([] : List Stage)
       else
        [Stage.fault] ++
        (match ((sys.st.increment_requests).2.should_error).1 with
         | some _ => []
         | none =>
           if (req.method = .GET ∧ req.path = str "/health") ∨
              (req.method = .POST ∧ req.path = str "/v1/chat/completions" ∧
                sys.st.config.providers.cerebras) ∨
              (req.method = .POST ∧ (str "/v1beta/models/").isPrefixOf req.path ∧
                sys.st.config.providers.gemini) ∨
              (req.method = .POST ∧ req.path = str "/v1/messages" ∧
                sys.st.config.providers.claude) ∨
              (req.method = .POST ∧ req.path = str "/v1/responses" ∧
                sys.st.config.providers.openai)
           then [Stage.dispatch] else []))) ∧
    (∀ (s : Nat) (p : Provider) (e : ErrorType),
      (handle_request req sys).1 = .fault s p e →
      p = provider_from_path req.path ∧ s = errorStatus e) ∧
    (∀ (s : Nat) (p : Provider) (e : ErrorType),
      (handle_request req sys).1 = .fault s p e →
      Stage.dispatch ∉ ((handle_request req sys).2.trace.drop sys.trace.length) ∧
      (0 < sys.st.latency_ms →
        Stage.latency sys.st.latency_ms ∈
          ((handle_request req sys).2.trace.drop sys.trace.length))) := by
  have hfault : ∀ sys' : Sys,
      (∀ (s : Nat) (p : Provider) (e : ErrorType),
        (error_middleware route_handlers req sys').1 = .fault s p e →
        p = provider_from_path req.path ∧ s = errorStatus e) := by
    intro sys' s p e
    rw [error_middleware]
    simp only []
    split_ifs with hauth
    · intro h
      injection h with h1 h2 h3
      subst h1
      subst h2
      subst h3
      exact ⟨rfl, rfl⟩
    · cases hse : ((sys'.st.increment_requests).2.should_error).1 with
      | some e' =>
        simp only [hse]
        intro h
        injection h with h1 h2 h3
        subst h1
        subst h2
        subst h3
        exact ⟨rfl, rfl⟩
      | none =>
        simp only [hse]
        rw [route_handlers]
        split_ifs <;> intro h <;> simp at h
  refine ⟨?_, ?_, ?_⟩
  · simp only [handle_request, latency_middleware]
    by_cases hlat : 0 < sys.st.latency_ms <;>
      simp only [hlat, ite_true, ite_false] <;>
      rw [error_middleware_trace] <;>
      simp
  · simp only [handle_request, latency_middleware]
    by_cases hlat : 0 < sys.st.latency_ms <;>
      simp only [hlat, ite_true, ite_false] <;>
      exact hfault _
  · intro s p e hf
    rw [handle_request, latency_middleware] at hf ⊢
    by_cases hlat : 0 < sys.st.latency_ms <;>
        simp only [hlat, ite_true, ite_false] at hf ⊢ <;>
        rw [error_middleware] at hf ⊢ <;>
        simp only [] at hf ⊢ <;>
        split_ifs at hf ⊢ with hauth
    all_goals
      first
      | (cases hse : ((sys.st.increment_requests).2.should_error).1 <;>
          simp_all [RuntimeState.increment_requests] <;>
          (try rw [route_handlers] at hf) <;>
          (try (split_ifs at hf <;> exact MwResponse.noConfusion hf)))
      | simp_all [RuntimeState.increment_requests]

/-- C1 counterexample: with a 7 ms base latency and a forced server
error, a request is faulted (server error, provider-shaped, complete)
yet its executed-stage trace BEGINS with the latency stage — the latency
delay is incurred before the counter increment and despite the fault,
contradicting the claimed order (counter first, latency after the fault
check) and the claim that a faulted request does not incur latency. -/
theorem middleware_pipeline_counterexample :
    (handle_request reqHealth (mkSys cfgLatencyForced)).1 =
      MwResponse.fault 500 Provider.Cerebras ErrorType.ServerError ∧
    (handle_request reqHealth (mkSys cfgLatencyForced)).2.trace =
      [Stage.latency 7, Stage.count, Stage.auth, Stage.fault] ∧
    (handle_request reqHealth (mkSys cfgLatencyForced)).2.trace.head? ≠
      some Stage.count := by
  refine ⟨rfl, rfl, by decide⟩

/-- Counter effect of the whole pipeline: exactly one increment per
request, whatever the outcome. -/
theorem handle_request_count (req : MwRequest) (sys : Sys) :
    (handle_request req sys).2.st.request_count = sys.st.request_count + 1 := by
  have hroute : ∀ sys' : Sys, (route_handlers req sys').2.st = sys'.st := by
    intro sys'
    rw [route_handlers]
    split_ifs <;> rfl
  rw [handle_request, latency_middleware, error_middleware]
  simp only []
  split_ifs
  all_goals try split
  all_goals try rfl
  all_goals
    simp [hroute, should_error_request_count, RuntimeState.increment_requests]

/-- C10: `/health` sits behind the same middleware as the provider
routes.  With auth required and a configured key list, a `GET /health`
carrying a missing or invalid bearer credential is answered with the 401
provider-shaped unauthorized body (the Cerebras-shaped fallback envelope,
since no provider path matches `/health`) instead of the fixed `"ok"`
body, and the request still increments the counter; and a `/health`
request is subject to fault injection: a configured forced server error
turns it into the 500 provider-shaped error response. -/
theorem health_middleware_spec :
    (∀ (sys : Sys) (hdr : Option Str),
      sys.st.config.auth.require_auth = true →
      (∀ k, extractBearer hdr = some k → k ∉ sys.st.config.auth.valid_keys) →
      (handle_request { method := .GET, path := str "/health", authorization := hdr } sys).1 =
        .fault 401 .Cerebras .Unauthorized ∧
      (handle_request { method := .GET, path := str "/health", authorization := hdr } sys).1 ≠
        .ok (str "ok") ∧
      (handle_request { method := .GET, path := str "/health", authorization := hdr }
        sys).2.st.request_count = sys.st.request_count + 1) ∧
    (∀ (sys : Sys) (hdr : Option Str),
      sys.st.config.errors.force_error = .ServerError →
      sys.st.config.auth.require_auth = false →
      (handle_request { method := .GET, path := str "/health", authorization := hdr } sys).1 =
        .fault 500 .Cerebras .ServerError) := by
  constructor
  · intro sys hdr hreq hkeys
    have hreq' : (sys.st.increment_requests).2.config.auth.require_auth = true := hreq
    have hvalid : (sys.st.increment_requests).2.is_valid_key (extractBearer hdr) = false := by
      rw [RuntimeState.is_valid_key.eq_def]
      simp only [hreq', not_true, ite_false, if_neg]
      cases hk : extractBearer hdr with
      | none => simp
      | some k =>
        simp only []
        cases hany : ((sys.st.increment_requests).2.config.auth.valid_keys.any
            (fun valid => valid = k)) with
        | false => simp [hany]
        | true =>
          exfalso
          obtain ⟨v, hvmem, hvk⟩ := List.any_eq_true.mp hany
          have hv : v = k := of_decide_eq_true hvk
          exact hkeys k hk (hv ▸ hvmem)
    have hcond : (sys.st.increment_requests).2.config.auth.require_auth = true ∧
        ¬ (sys.st.increment_requests).2.is_valid_key (extractBearer hdr) = true := by
      refine ⟨hreq', ?_⟩
      simp [hvalid]
    have hmain : (handle_request { method := .GET, path := str "/health", authorization := hdr }
        sys).1 = .fault 401 .Cerebras .Unauthorized := by
      rw [handle_request, latency_middleware]
      by_cases hlat : 0 < sys.st.latency_ms <;>
        simp only [hlat, ite_true, ite_false] <;>
        rw [error_middleware] <;>
        simp only [] <;>
        rw [if_pos hcond] <;>
        rfl
    refine ⟨hmain, ?_, handle_request_count _ _⟩
    rw [hmain]
    simp
  · intro sys hdr hforce hnoauth
    have hnoauth' : (sys.st.increment_requests).2.config.auth.require_auth = false := hnoauth
    have hforce' : (sys.st.increment_requests).2.config.errors.force_error = .ServerError :=
      hforce
    have hse : ((sys.st.increment_requests).2.should_error).1 = some .ServerError := by
      rw [RuntimeState.should_error]
      simp only [hforce']
    have hcond : ¬ ((sys.st.increment_requests).2.config.auth.require_auth = true ∧
        ¬ (sys.st.increment_requests).2.is_valid_key (extractBearer hdr) = true) := by
      rintro ⟨h1, _⟩
      rw [hnoauth'] at h1
      exact Bool.false_ne_true h1
    rw [handle_request, latency_middleware]
    by_cases hlat : 0 < sys.st.latency_ms <;>
      simp only [hlat, ite_true, ite_false] <;>
      rw [error_middleware] <;>
      simp only [] <;>
      rw [if_neg hcond] <;>
      simp only [hse] <;>
      rfl

/-- Witness for `health_middleware_spec`: an auth-required configuration
with key `"k1"` and no Authorization header, and a forced-server-error
configuration. -/
theorem health_middleware_spec_witness :
    ((handle_request { method := .GET, path := str "/health", authorization := none }
        (mkSys { Config.default with
          auth := { require_auth := true, valid_keys := [str "k1"] } })).1 =
      .fault 401 .Cerebras .Unauthorized) ∧
    ((handle_request { method := .GET, path := str "/health", authorization := none }
        (mkSys cfgLatencyForced)).1 = .fault 500 .Cerebras .ServerError) :=
  ⟨(health_middleware_spec.1
      (mkSys { Config.default with
        auth := { require_auth := true, valid_keys := [str "k1"] } }) none rfl
      (fun k h => by simp [extractBearer] at h)).1,
   health_middleware_spec.2 (mkSys cfgLatencyForced) none rfl rfl⟩

/-! ### The tool-invocation heuristic (claims C5, C6) -/

theorem containsTrigger_eq (t : Str) :
    containsTrigger t =
      (strContains (lowerStr t) (str "weather") || strContains (lowerStr t) (str "search") ||
        strContains (lowerStr t) (str "calculate") ||
        strContains (lowerStr t) (str "what is") ||
        strContains (lowerStr t) (str "find")) := by
  rw [containsTrigger, TRIGGERS]
  simp [Bool.or_assoc]

theorem cerebras_wants_tools_eq (req : ChatCompletionRequest) :
    cerebras_wants_tools req = (req.tools.isSome && hasTrigger (cerLastText req)) := by
  rw [cerebras_wants_tools, cerebras_should_call_tool]
  cases hlast : req.messages.getLast? with
  | none => simp [cerLastText, hlast, hasTrigger]
  | some m =>
    cases hc : m.content with
    | none => simp [cerLastText, hlast, hc, hasTrigger]
    | some t =>
      simp [cerLastText, hlast, hc, hasTrigger, containsTrigger_eq]

theorem claude_wants_tools_eq (req : MessagesRequest) :
    claude_wants_tools req = (req.tools.isSome && hasTrigger (claudeLastText req)) := by
  rw [claude_wants_tools, claude_should_call_tool]
  cases hlast : req.messages.getLast? with
  | none => simp [claudeLastText, hlast, hasTrigger]
  | some m =>
    cases hc : clMessageText m.content with
    | none => simp [claudeLastText, hlast, hc, hasTrigger]
    | some t =>
      simp [claudeLastText, hlast, hc, hasTrigger, containsTrigger_eq]

theorem gemini_wants_tools_eq (req : GenerateContentRequest) :
    gemini_should_call_tool req = (req.tools.isSome && hasTrigger (geminiLastText req)) := by
  rw [gemini_should_call_tool]
  cases htools : req.tools with
  | none => simp [htools]
  | some l =>
    simp only [htools, Option.isNone_some, ite_false, Option.isSome_some, Bool.true_and]
    cases hlast : req.contents.getLast? with
    | none => simp [geminiLastText, hlast, hasTrigger]
    | some c =>
      cases ht : c.parts.findSome? (fun p => p.text) with
      | none => simp [geminiLastText, hlast, ht, hasTrigger]
      | some t =>
        simp [geminiLastText, hlast, ht, hasTrigger, containsTrigger_eq]

theorem openai_wants_tools_eq (req : ResponsesRequest) :
    openai_wants_tools req =
      (req.tools.isSome && hasTrigger (openai_extract_input_text req.input)) := by
  rw [openai_wants_tools, openai_should_call_tool]
  cases ht : openai_extract_input_text req.input with
  | none => simp [hasTrigger]
  | some t => simp [hasTrigger, containsTrigger_eq]

/-- C5 (amended): for every provider, a tool-invocation response is
chosen iff the extracted text (the most recent turn's text; the first
text found in a structured block/part list) case-insensitively contains
a trigger word AND the request's `tools` field is PRESENT — presence of
the field, not of a declared tool: a present-but-empty tool list also
selects tool invocation. -/
theorem tool_heuristic_spec :
    (∀ req : ChatCompletionRequest,
      cerebras_wants_tools req = (req.tools.isSome && hasTrigger (cerLastText req))) ∧
    (∀ req : MessagesRequest,
      claude_wants_tools req = (req.tools.isSome && hasTrigger (claudeLastText req))) ∧
    (∀ req : GenerateContentRequest,
      gemini_should_call_tool req = (req.tools.isSome && hasTrigger (geminiLastText req))) ∧
    (∀ req : ResponsesRequest,
      openai_wants_tools req =
        (req.tools.isSome && hasTrigger (openai_extract_input_text req.input))) :=
  ⟨cerebras_wants_tools_eq, claude_wants_tools_eq, gemini_wants_tools_eq,
   openai_wants_tools_eq⟩

/-- C5 counterexample: a cerebras request whose text contains `weather`
and whose `tools` field is present but EMPTY — zero tools declared —
still selects the tool-invocation path, refuting the claimed "at least
one tool/function was declared" conjunct. -/
theorem tool_heuristic_counterexample :
    cerebras_wants_tools reqCerEmptyTools = true ∧
    reqCerEmptyTools.tools = some [] ∧
    (reqCerEmptyTools.tools.map List.length) = some 0 := by
  refine ⟨by decide, rfl, rfl⟩

theorem containsTrigger_of_weather {t : Str}
    (h : strContains t (str "weather") = true) : containsTrigger t = true := by
  have hmap := strContains_map Char.toLower h
  have hw : (str "weather").map Char.toLower = str "weather" := by decide
  rw [hw] at hmap
  rw [containsTrigger_eq, lowerStr]
  simp [hmap]

/-- C6: for the cerebras, claude and gemini builders, a non-streaming
request whose extracted last-turn text contains `weather` and which
declares a tool produces exactly one tool-call item with the provider's
tool-invocation sentinel (`tool_calls` / `tool_use` / `STOP` — for
Gemini the real API terminates function calls with `STOP`, so `STOP`
serves as both sentinels); a request whose text contains no trigger
words produces a text item with the normal-completion sentinel
(`stop` / `end_turn` / `STOP`). -/
theorem non_stream_tool_shape_spec :
    (∀ (req : ChatCompletionRequest) (g : ContentGenerator) (e : Nat) (t : Str),
      cerLastText req = some t →
      strContains t (str "weather") = true →
      req.tools.isSome = true →
      ∃ c, (cerebras_non_stream_response req g e).choices = [c] ∧
        (∃ call, c.message.tool_calls = some [call]) ∧
        c.message.content = none ∧
        c.finish_reason = str "tool_calls") ∧
    (∀ (req : ChatCompletionRequest) (g : ContentGenerator) (e : Nat),
      hasTrigger (cerLastText req) = false →
      ∃ c, (cerebras_non_stream_response req g e).choices = [c] ∧
        c.message.tool_calls = none ∧
        (∃ txt, c.message.content = some txt) ∧
        c.finish_reason = str "stop") ∧
    (∀ (req : MessagesRequest) (g : ContentGenerator) (t : Str),
      claudeLastText req = some t →
      strContains t (str "weather") = true →
      req.tools.isSome = true →
      ((claude_non_stream_response req g).content.filter
        (fun c => match c with | .ToolUse _ _ _ => true | _ => false)).length = 1 ∧
      (claude_non_stream_response req g).stop_reason = str "tool_use") ∧
    (∀ (req : MessagesRequest) (g : ContentGenerator),
      hasTrigger (claudeLastText req) = false →
      (∃ txt, ClResponseContent.Text txt ∈ (claude_non_stream_response req g).content) ∧
      (claude_non_stream_response req g).stop_reason = str "end_turn") ∧
    (∀ (model : Str) (req : GenerateContentRequest) (g : ContentGenerator) (t : Str),
      geminiLastText req = some t →
      strContains t (str "weather") = true →
      req.tools.isSome = true →
      ∃ p, (gemini_non_stream_response model req g).candidates.map
          (fun cand => (cand.parts, cand.finish_reason)) =
        [([p], some (str "STOP"))] ∧
        p.function_call.isSome = true ∧ p.text = none) ∧
    (∀ (model : Str) (req : GenerateContentRequest) (g : ContentGenerator),
      hasTrigger (geminiLastText req) = false →
      ∃ p txt, (gemini_non_stream_response model req g).candidates.map
          (fun cand => (cand.parts, cand.finish_reason)) =
        [([p], some (str "STOP"))] ∧
        p.text = some txt) := by
  refine ⟨?_, ?_, ?_, ?_, ?_, ?_⟩
  · intro req g e t ht htrig htools
    have hwants : cerebras_wants_tools req = true := by
      rw [cerebras_wants_tools_eq, htools, ht]
      simp [hasTrigger, containsTrigger_of_weather htrig]
    simp only [cerebras_non_stream_response, hwants, ite_true]
    exact ⟨_, rfl, ⟨_, rfl⟩, rfl, rfl⟩
  · intro req g e hno
    have hwants : cerebras_wants_tools req = false := by
      rw [cerebras_wants_tools_eq, hno]
      simp
    simp only [cerebras_non_stream_response, hwants, ite_false]
    exact ⟨_, rfl, rfl, ⟨_, rfl⟩, rfl⟩
  · intro req g t ht htrig htools
    have hwants : claude_wants_tools req = true := by
      rw [claude_wants_tools_eq, htools, ht]
      simp [hasTrigger, containsTrigger_of_weather htrig]
    cases hthink : req.thinking.isSome <;>
      simp [claude_non_stream_response, hwants, hthink]
  · intro req g hno
    have hwants : claude_wants_tools req = false := by
      rw [claude_wants_tools_eq, hno]
      simp
    cases hthink : req.thinking.isSome <;>
      simp [claude_non_stream_response, hwants, hthink]
  · intro model req g t ht htrig htools
    have hwants : gemini_should_call_tool req = true := by
      rw [gemini_wants_tools_eq, htools, ht]
      simp [hasTrigger, containsTrigger_of_weather htrig]
    simp only [gemini_non_stream_response, hwants, ite_true]
    refine ⟨{ text := none,
              function_call := some { name := gemini_get_first_function_name req,
                                      args := jsonLoc (gemini_extract_argument req) } },
            ?_, rfl, rfl⟩
    simp
  · intro model req g hno
    have hwants : gemini_should_call_tool req = false := by
      rw [gemini_wants_tools_eq, hno]
      simp
    simp only [gemini_non_stream_response, hwants, ite_false]
    refine ⟨{ text := some (g.paragraph).1, function_call := none },
            (g.paragraph).1, ?_, rfl⟩
    simp

/-- Witness for `non_stream_tool_shape_spec` at concrete tool and plain
requests for each provider. -/
theorem non_stream_tool_shape_spec_witness :
    (cerLastText reqCerTool = some (str "weather in Tokyo") ∧
      strContains (str "weather in Tokyo") (str "weather") = true ∧
      reqCerTool.tools.isSome = true ∧
      (∃ c, (cerebras_non_stream_response reqCerTool gZero 0).choices = [c] ∧
        (∃ call, c.message.tool_calls = some [call]) ∧
        c.message.content = none ∧
        c.finish_reason = str "tool_calls")) ∧
    (hasTrigger (cerLastText reqCerPlain) = false ∧
      (∃ c, (cerebras_non_stream_response reqCerPlain gZero 0).choices = [c] ∧
        c.message.tool_calls = none ∧
        (∃ txt, c.message.content = some txt) ∧
        c.finish_reason = str "stop")) ∧
    (((claude_non_stream_response reqClTool gZero).content.filter
        (fun c => match c with | .ToolUse _ _ _ => true | _ => false)).length = 1 ∧
      (claude_non_stream_response reqClTool gZero).stop_reason = str "tool_use") ∧
    ((∃ txt, ClResponseContent.Text txt ∈ (claude_non_stream_response reqClPlain gZero).content) ∧
      (claude_non_stream_response reqClPlain gZero).stop_reason = str "end_turn") ∧
    (∃ p, (gemini_non_stream_response (str "m") reqGemTool gZero).candidates.map
        (fun cand => (cand.parts, cand.finish_reason)) = [([p], some (str "STOP"))] ∧
      p.function_call.isSome = true ∧ p.text = none) ∧
    (∃ p txt, (gemini_non_stream_response (str "m") reqGemPlain gZero).candidates.map
        (fun cand => (cand.parts, cand.finish_reason)) = [([p], some (str "STOP"))] ∧
      p.text = some txt) :=
  ⟨⟨rfl, by decide, rfl,
    non_stream_tool_shape_spec.1 reqCerTool gZero 0 (str "weather in Tokyo") rfl
      (by decide) rfl⟩,
   ⟨by decide,
    non_stream_tool_shape_spec.2.1 reqCerPlain gZero 0 (by decide)⟩,
   non_stream_tool_shape_spec.2.2.1 reqClTool gZero (str "weather in Tokyo") rfl
     (by decide) rfl,
   non_stream_tool_shape_spec.2.2.2.1 reqClPlain gZero (by decide),
   non_stream_tool_shape_spec.2.2.2.2.1 (str "m") reqGemTool gZero
     (str "weather in Tokyo") rfl (by decide) rfl,
   non_stream_tool_shape_spec.2.2.2.2.2 (str "m") reqGemPlain gZero (by decide)⟩

/-! ### Streaming usage accounting (claim C7) -/

theorem findSome?_map_none {α β γ : Type} (l : List α) (f : α → β) (g : β → Option γ)
    (h : ∀ a, g (f a) = none) : (l.map f).findSome? g = none := by
  induction l with
  | nil => rfl
  | cons a t ih => simp [List.findSome?_cons, h, ih]

theorem filterMap_map_none {α β γ : Type} (l : List α) (f : α → β) (g : β → Option γ)
    (h : ∀ a, g (f a) = none) : (l.map f).filterMap g = [] := by
  induction l with
  | nil => rfl
  | cons a t ih => simp [List.filterMap_cons, h, ih]

theorem filterMap_map_id {α β : Type} (l : List α) (f : α → β) (g : β → Option α)
    (h : ∀ a, g (f a) = some a) : (l.map f).filterMap g = l := by
  induction l with
  | nil => rfl
  | cons a t ih => simp [List.filterMap_cons, h, ih]

theorem findSome?_comp_none {α β γ : Type} (l : List α) (f : α → β) (g : β → Option γ)
    (h : ∀ a, g (f a) = none) : l.findSome? (g ∘ f) = none := by
  induction l with
  | nil => rfl
  | cons a t ih => simp [List.findSome?_cons, Function.comp, h, ih]

theorem filterMap_comp_none {α β γ : Type} (l : List α) (f : α → β) (g : β → Option γ)
    (h : ∀ a, g (f a) = none) : l.filterMap (g ∘ f) = [] := by
  induction l with
  | nil => rfl
  | cons a t ih => simp [List.filterMap_cons, Function.comp, h, ih]

theorem filterMap_comp_id {α β : Type} (l : List α) (f : α → β) (g : β → Option α)
    (h : ∀ a, g (f a) = some a) : l.filterMap (g ∘ f) = l := by
  induction l with
  | nil => rfl
  | cons a t ih => simp [List.filterMap_cons, Function.comp, h, ih]

/-- C7 (amended): what each streaming builder actually reports as output
usage.  Cerebras tallies `estimate_tokens` over the emitted content
deltas but clamps the sum to a minimum of 1 (so a tool stream, which
emits no content delta, reports 1, not 0); its reported total is input
plus that count, and usage appears only when opted in.  OpenAI reports
15 for tool streams, and for text streams clamps to 1 the sum of
estimates over the RAW chunks — computed before the inter-chunk space is
glued onto every emitted delta after the first, so it can undercount the
emitted deltas.  Claude adds the estimate of the whole thinking text
(taken before chunking, not tallied from the thinking deltas), plus 50
for a tool call, plus — on the text path only — the per-delta tally;
claude reports no total. -/
theorem streaming_usage_spec :
    (∀ (req : ChatCompletionRequest) (g : ContentGenerator) (e : Nat),
      (req.stream_options.map (fun o => o.include_usage)).getD false = true →
      (cerUsageReported (cerebras_stream_events req g e)).isSome = true ∧
      (∀ u, cerUsageReported (cerebras_stream_events req g e) = some u →
        u.completion_tokens =
          max (((cerContentDeltas (cerebras_stream_events req g e)).map
            ContentGenerator.estimate_tokens).sum) 1 ∧
        u.total_tokens = u.prompt_tokens + u.completion_tokens)) ∧
    (∀ (req : ChatCompletionRequest) (g : ContentGenerator) (e : Nat),
      (req.stream_options.map (fun o => o.include_usage)).getD false = false →
      cerUsageReported (cerebras_stream_events req g e) = none) ∧
    (∀ (req : ResponsesRequest) (g : ContentGenerator),
      (oaiUsageReported (openai_stream_events req g)).isSome = true ∧
      (∀ u, oaiUsageReported (openai_stream_events req g) = some u →
        u.output_tokens =
          (if openai_wants_tools req = true then 15
           else max (((((g.tool_call_id).2.tool_call_id).2.stream_chunks
             (req.max_output_tokens.getD 50)).1.map
               ContentGenerator.estimate_tokens).sum) 1) ∧
        u.total_tokens = u.input_tokens + u.output_tokens) ∧
      (openai_wants_tools req = false →
        oaiTextDeltas (openai_stream_events req g) =
          spaceAfterFirst (((g.tool_call_id).2.tool_call_id).2.stream_chunks
            (req.max_output_tokens.getD 50)).1)) ∧
    (∀ (req : MessagesRequest) (g : ContentGenerator),
      (clUsageReported (claude_stream_events req g)).isSome = true ∧
      (∀ u, clUsageReported (claude_stream_events req g) = some u →
        u.output_tokens =
          (if req.thinking.isSome = true then
            ContentGenerator.estimate_tokens
              (((claude_generate_message_id g).2).paragraph).1
           else 0) +
          (if claude_wants_tools req = true then 50
           else ((clTextDeltas (claude_stream_events req g)).map
             ContentGenerator.estimate_tokens).sum) ∧
        u.input_tokens = claude_count_input_tokens req)) := by
  refine ⟨?_, ?_, ?_, ?_⟩
  · intro req g e hinc
    cases hw : cerebras_wants_tools req
    · constructor
      · simp [cerebras_stream_events, cerebras_generate_content_chunks, hw, hinc,
          cerUsageReported, List.findSome?_cons, List.findSome?_append,
          findSome?_map_none, findSome?_comp_none]
      · intro u hu
        simp [cerebras_stream_events, cerebras_generate_content_chunks, hw, hinc,
          cerUsageReported, List.findSome?_cons, List.findSome?_append,
          findSome?_map_none, findSome?_comp_none] at hu
        subst hu
        constructor
        · simp [cerebras_stream_events, cerebras_generate_content_chunks, hw, hinc,
            cerContentDeltas, List.filterMap_cons, List.filterMap_append,
            filterMap_map_none, filterMap_comp_none, filterMap_map_id,
            filterMap_comp_id, cerContentOf]
        · rfl
    · constructor
      · simp [cerebras_stream_events, cerebras_generate_tool_chunks, hw, hinc,
          cerUsageReported, List.findSome?_cons]
      · intro u hu
        simp [cerebras_stream_events, cerebras_generate_tool_chunks, hw, hinc,
          cerUsageReported, List.findSome?_cons] at hu
        subst hu
        constructor
        · simp [cerebras_stream_events, cerebras_generate_tool_chunks, hw, hinc,
            cerContentDeltas, List.filterMap_cons, cerContentOf]
        · rfl
  · intro req g e hinc
    cases hw : cerebras_wants_tools req <;>
      simp [cerebras_stream_events, cerebras_generate_content_chunks,
        cerebras_generate_tool_chunks, hw, hinc, cerUsageReported,
        List.findSome?_cons, List.findSome?_append, findSome?_map_none,
        findSome?_comp_none]
  · intro req g
    cases hw : openai_wants_tools req
    · refine ⟨?_, ?_, ?_⟩
      · simp [openai_stream_events, hw, oaiUsageReported, List.findSome?_cons,
          List.findSome?_append, findSome?_map_none, findSome?_comp_none]
      · intro u hu
        simp [openai_stream_events, hw, oaiUsageReported, List.findSome?_cons,
          List.findSome?_append, findSome?_map_none, findSome?_comp_none] at hu
        subst hu
        constructor
        · simp [hw]
        · rfl
      · intro _
        simp [openai_stream_events, hw, oaiTextDeltas, List.filterMap_cons,
          List.filterMap_append, filterMap_map_none, filterMap_comp_none,
          filterMap_map_id, filterMap_comp_id]
    · refine ⟨?_, ?_, ?_⟩
      · simp [openai_stream_events, hw, oaiUsageReported, List.findSome?_cons]
      · intro u hu
        simp [openai_stream_events, hw, oaiUsageReported, List.findSome?_cons] at hu
        subst hu
        constructor
        · simp [hw]
        · rfl
      · intro hfalse
        simp [hw] at hfalse
  · intro req g
    cases hthink : req.thinking.isSome <;> cases hw : claude_wants_tools req
    · constructor
      · simp [claude_stream_events, hthink, hw, clUsageReported, List.findSome?_cons,
          List.findSome?_append, findSome?_map_none, findSome?_comp_none]
      · intro u hu
        simp [claude_stream_events, hthink, hw, clUsageReported, List.findSome?_cons,
          List.findSome?_append, findSome?_map_none, findSome?_comp_none] at hu
        subst hu
        constructor
        · simp [claude_stream_events, hthink, hw, clTextDeltas, List.filterMap_cons,
            List.filterMap_append, filterMap_map_none, filterMap_comp_none,
            filterMap_map_id, filterMap_comp_id]
        · rfl
    · constructor
      · simp [claude_stream_events, hthink, hw, clUsageReported, List.findSome?_cons,
          List.findSome?_append, findSome?_map_none, findSome?_comp_none]
      · intro u hu
        simp [claude_stream_events, hthink, hw, clUsageReported, List.findSome?_cons,
          List.findSome?_append, findSome?_map_none, findSome?_comp_none] at hu
        subst hu
        constructor
        · simp [claude_stream_events, hthink, hw, clTextDeltas, List.filterMap_cons,
            List.filterMap_append, filterMap_map_none, filterMap_comp_none,
            filterMap_map_id, filterMap_comp_id]
        · rfl
    · constructor
      · simp [claude_stream_events, hthink, hw, clUsageReported, List.findSome?_cons,
          List.findSome?_append, findSome?_map_none, findSome?_comp_none]
      · intro u hu
        simp [claude_stream_events, hthink, hw, clUsageReported, List.findSome?_cons,
          List.findSome?_append, findSome?_map_none, findSome?_comp_none] at hu
        subst hu
        constructor
        · simp [claude_stream_events, hthink, hw, clTextDeltas, List.filterMap_cons,
            List.filterMap_append, filterMap_map_none, filterMap_comp_none,
            filterMap_map_id, filterMap_comp_id]
        · rfl
    · constructor
      · simp [claude_stream_events, hthink, hw, clUsageReported, List.findSome?_cons,
          List.findSome?_append, findSome?_map_none, findSome?_comp_none]
      · intro u hu
        simp [claude_stream_events, hthink, hw, clUsageReported, List.findSome?_cons,
          List.findSome?_append, findSome?_map_none, findSome?_comp_none] at hu
        subst hu
        constructor
        · simp [claude_stream_events, hthink, hw, clTextDeltas, List.filterMap_cons,
            List.filterMap_append, filterMap_map_none, filterMap_comp_none,
            filterMap_map_id, filterMap_comp_id]
        · rfl

/-- C7 counterexample: in the openai stream for `reqOaiText` over
`gTwoChunks`, the final fragment reports 4 output tokens — the sum of
estimates over the raw chunks, computed before the leading space is glued
onto the second delta — while the sum of estimates over the deltas
actually emitted is 5. -/
theorem streaming_usage_counterexample :
    (oaiUsageReported (openai_stream_events reqOaiText gTwoChunks)).map
      (fun u => u.output_tokens) = some 4 ∧
    ((oaiTextDeltas (openai_stream_events reqOaiText gTwoChunks)).map
      ContentGenerator.estimate_tokens).sum = 5 ∧
    (4 : Nat) ≠ 5 :=
  ⟨by decide, by decide, by decide⟩

/-- Witness instantiating `streaming_usage_spec`: an opted-in cerebras
tool stream does carry usage, and a stream without the opt-in carries
none. -/
theorem streaming_usage_spec_witness :
    (cerUsageReported (cerebras_stream_events reqCerToolStream gZero 0)).isSome = true ∧
    cerUsageReported (cerebras_stream_events reqCerPlain gZero 0) = none :=
  ⟨(streaming_usage_spec.1 reqCerToolStream gZero 0 rfl).1,
   streaming_usage_spec.2.1 reqCerPlain gZero 0 rfl⟩

/-- C8 (amended): the producer is run-to-run deterministic — independent
of the ambient entropy source and its cursor — for every operation
sequence that avoids `completion_id`.  `completion_id` embeds a v4 UUID
drawn from system entropy outside the seeded generator, so it is the one
operation whose output can differ between two runs with the same seed. -/
theorem producer_determinism_spec (g : ContentGenerator) (e1 e2 : Nat → Nat)
    (i1 i2 : Nat) (ops : List GenOp) (h : GenOp.completionId ∉ ops) :
    runOps g e1 i1 ops = runOps g e2 i2 ops := by
  induction ops generalizing g i1 i2 with
  | nil => rfl
  | cons op rest ih =>
    have hop : op ≠ GenOp.completionId := fun he => h (he ▸ List.mem_cons_self op rest)
    have hrest : GenOp.completionId ∉ rest := fun hm => h (List.mem_cons_of_mem op hm)
    cases op with
    | completionId => exact absurd rfl hop
    | word =>
      rcases hs : g.word with ⟨w, g2⟩
      simp only [runOps, runOp, hs]
      exact congrArg (List.cons [w]) (ih g2 i1 i2 hrest)
    | sentence =>
      rcases hs : g.sentence with ⟨w, g2⟩
      simp only [runOps, runOp, hs]
      exact congrArg (List.cons [w]) (ih g2 i1 i2 hrest)
    | paragraph =>
      rcases hs : g.paragraph with ⟨w, g2⟩
      simp only [runOps, runOp, hs]
      exact congrArg (List.cons [w]) (ih g2 i1 i2 hrest)
    | streamChunks n =>
      rcases hs : g.stream_chunks n with ⟨cs, g2⟩
      simp only [runOps, runOp, hs]
      exact congrArg (List.cons cs) (ih g2 i1 i2 hrest)
    | toolCallId =>
      rcases hs : g.tool_call_id with ⟨w, g2⟩
      simp only [runOps, runOp, hs]
      exact congrArg (List.cons [w]) (ih g2 i1 i2 hrest)
    | fingerprint =>
      rcases hs : g.fingerprint with ⟨w, g2⟩
      simp only [runOps, runOp, hs]
      exact congrArg (List.cons [w]) (ih g2 i1 i2 hrest)

/-- C8 counterexample: a single `completion_id` draw differs between two
runs whose ambient entropy differs, even with the same seeded generator
state. -/
theorem producer_determinism_counterexample :
    runOps gZero (fun _ => 0) 0 [GenOp.completionId] ≠
    runOps gZero (fun _ => 1) 0 [GenOp.completionId] := by
  decide

/-- Witness instantiating `producer_determinism_spec` on a concrete
entropy-free operation sequence. -/
theorem producer_determinism_spec_witness :
    GenOp.completionId ∉ [GenOp.word, GenOp.sentence] ∧
    runOps gZero (fun _ => 0) 0 [GenOp.word, GenOp.sentence] =
      runOps gZero (fun _ => 1) 5 [GenOp.word, GenOp.sentence] :=
  ⟨by decide, producer_determinism_spec gZero (fun _ => 0) (fun _ => 1) 0 5
    [GenOp.word, GenOp.sentence] (by decide)⟩
